import Mathlib

/-!
# HeatQuest backend — verification of the core pipeline

Shallow embedding of the HeatQuest backend core (grid generation, batch
heat-score computation, parent/child spatial cache, hotspot detection and
the downstream dedup gate) together with theorems settling the frozen
claims about it.

Conventions of the embedding:
* Python floats are modelled as exact rationals (`ℚ`); `round(x, n)` is
  modelled as round-half-to-even on the rational value, which is Python's
  rounding mode on the decimal value represented by the float.
* Python dict fields that may be missing or `None` are modelled by
  `Field α` (absent / null / value), matching the distinct behaviours of
  `d.get(k)`, `d.get(k, 0)` and `d[k]`.
* Database tables are lists of row structures; a `UNIQUE` column is
  modelled by an insert that fails (`Except.error`) when the key is
  already present.
* Fallible Python code (`raise` / `try: ... except:`) is modelled with
  `Except` / `Option`.
-/

namespace HeatQuest

/-! ## Python `round` (banker's rounding) -/

/-- Round-half-to-even on `ℚ`, the tie-breaking rule of Python's `round`. -/
def roundHalfEven (x : ℚ) : ℤ :=
  let f : ℤ := ⌊x⌋
  let r : ℚ := x - f
  if r < 1/2 then f
  else if 1/2 < r then f + 1
  else if f % 2 = 0 then f else f + 1

/-- Python `round(x, 2)`. -/
def round2 (x : ℚ) : ℚ := (roundHalfEven (100 * x) : ℚ) / 100

/-- Python `round(x, 3)`. -/
def round3 (x : ℚ) : ℚ := (roundHalfEven (1000 * x) : ℚ) / 1000

/-! ## Spatial grid generator (`grid_service.generate_grid`) -/

/-- One transient grid cell, as built by `GridService.generate_grid`
(`src/backend/app/services/grid_service.py`, lines 79-96).  The shapely
`geometry` field is determined by the four bounds and is omitted. -/
structure GridCell where
  cell_id : String
  lat_min : ℚ
  lat_max : ℚ
  lon_min : ℚ
  lon_max : ℚ
  center_lat : ℚ
  center_lon : ℚ
  deriving Repr, DecidableEq

/-- Number of elements of `np.arange(start, stop, step)` (`step > 0`):
`ceil((stop - start) / step)`, and 0 when `stop ≤ start`. -/
def arangeLen (start stop step : ℚ) : ℕ := (⌈(stop - start) / step⌉).toNat

/-- `np.arange(start, stop, step)` over exact rationals. -/
def arange (start stop step : ℚ) : List ℚ :=
  (List.range (arangeLen start stop step)).map (fun i => start + i * step)

/-- The cell built for grid indices `(i, j)` at position `(lat, lon)`
with cell side `s` degrees (grid_service.py lines 81-95). -/
def mkGridCell (i j : ℕ) (lat lon s : ℚ) : GridCell :=
  { cell_id := "cell_" ++ toString i ++ "_" ++ toString j
    lat_min := lat
    lat_max := lat + s
    lon_min := lon
    lon_max := lon + s
    center_lat := lat + s / 2
    center_lon := lon + s / 2 }

/-- `GridService.generate_grid` (grid_service.py lines 36-100): converts
`cell_size_m` to degrees by `/ 111000`, builds `np.arange` step lists for
latitude and longitude, and emits one cell per `(i, j)` pair in row-major
order (outer loop over latitudes, inner loop over longitudes).  Since the
`i`-th element of `arange start stop step` is `start + i * step`, the
Python `for i, lat in enumerate(lat_steps)` loop pairs each index with
exactly that value, which is how the two loops are rendered here. -/
def generate_grid (lat_min lat_max lon_min lon_max cell_size_m : ℚ) : List GridCell :=
  let s := cell_size_m / 111000
  let nLat := arangeLen lat_min lat_max s
  let nLon := arangeLen lon_min lon_max s
  ((List.range nLat).map (fun i =>
    (List.range nLon).map (fun j =>
      mkGridCell i j (lat_min + i * s) (lon_min + j * s) s))).flatten

/-- The cell the grid generator emits at row `i`, column `j`. -/
def gridCellAt (lat_min lon_min s : ℚ) (i j : ℕ) : GridCell :=
  mkGridCell i j (lat_min + i * s) (lon_min + j * s) s

/-! ## Heat-score computation (`grid_service`, `landsat_service`, `sentinel_service`)

Both heat-score modes consult two external raster sources.  The underlying
raster data is modelled at the interface drawn by the code: a function from
the query region actually passed to the raster libraries to the mean pixel
value over that region (`none` when the region has no valid pixels).  The
non-batch mode queries a 100 m circular buffer around the cell center
(`landsat_service.get_temperature(lat, lon, radius=100)`,
`sentinel_service.calculate_ndvi(lat, lon, radius=100)`); the batch mode
queries the cell polygon itself via `zonal_stats`.  For the temperature
source the mean is taken over raw digital numbers; `get_temperature`
converts each pixel before averaging, which by linearity of the affine
conversion equals converting the raw mean. -/

/-- A region the code hands to the raster layer: either the circular buffer
of `create_buffer_around_point(lat, lon, radius)` or a grid cell's polygon. -/
inductive RegionQuery where
  | circle (lat lon radius : ℚ)
  | cellPolygon (cell : GridCell)
  deriving Repr, DecidableEq

/-- A raster source at the interface boundary: mean pixel value over a
queried region, `none` when no valid (non-nodata) pixel lies in it. -/
abbrev Raster : Type := RegionQuery → Option ℚ

/-- Landsat Collection-2 Level-2 raw-to-Celsius conversion used by both
modes: `Kelvin = DN * 0.00341802 + 149.0`, `Celsius = Kelvin - 273.15`
(grid_service.py lines 369-372, landsat_service.py lines 281-290). -/
def dnToCelsius (raw : ℚ) : ℚ := (raw * (341802 / 100000000) + 149) - 27315/100

/-- `LandsatService.get_temperature` at a point with a 100 m radius:
mean Celsius temperature over the circular buffer, rounded to 2 decimals
(landsat_service.py line 299); raises (`none`) when the buffer holds no
valid pixel (line 279). -/
def landsatGetTemperature (tempRaster : Raster) (lat lon radius : ℚ) : Option ℚ :=
  (tempRaster (.circle lat lon radius)).map (fun rawMean => round2 (dnToCelsius rawMean))

/-- `SentinelService.calculate_ndvi`: mean NDVI over the circular buffer
rounded to 3 decimals with source `"sentinel-2"`; on any failure or when
no valid pixel exists, the flat estimate `0.3` with source
`"estimated_urban"` (sentinel_service.py lines 145-188). -/
def sentinelCalculateNdvi (ndviRaster : Raster) (lat lon radius : ℚ) : ℚ × String :=
  match ndviRaster (.circle lat lon radius) with
  | some m => (round3 m, "sentinel-2")
  | none => (round3 (3/10), "estimated_urban")

/-- The nullable per-cell fields of a `GridCellResponse` that the two
heat-score modes fill in (temp, ndvi, heat_score). -/
structure CellFields where
  temp : Option ℚ
  ndvi : Option ℚ
  heat_score : Option ℚ
  deriving Repr, DecidableEq

/-- Per-cell body of the non-batch mode
`GridService.calculate_grid_heat_scores` (grid_service.py lines 143-212):
query temperature and NDVI once for this cell (100 m radius around the
center), combine `heat_score = mean_temp - 0.3 * mean_ndvi`, round the
response fields; any exception (here: the temperature service finding no
valid pixels) yields the all-`None` row. -/
def nonBatchCellFields (tempRaster ndviRaster : Raster) (cell : GridCell) : CellFields :=
  match landsatGetTemperature tempRaster cell.center_lat cell.center_lon 100 with
  | none => ⟨none, none, none⟩
  | some mean_temp =>
      let mean_ndvi := (sentinelCalculateNdvi ndviRaster cell.center_lat cell.center_lon 100).1
      let heat_score := mean_temp - 3/10 * mean_ndvi
      ⟨some (round2 mean_temp), some (round3 mean_ndvi), some (round2 heat_score)⟩

/-- Per-cell body of the batch mode
`GridService.calculate_grid_heat_scores_batch` (grid_service.py lines
344-390): the zonal raw temperature mean and NDVI mean for the cell
polygon; if either is `None` the row is all-`None`, otherwise the raw
mean is converted to Celsius and `heat_score = temp_celsius - 0.3 * ndvi`,
with the response fields rounded (temp 2 dp, ndvi 3 dp, heat 2 dp). -/
def batchCellFieldsOfMeans (raw_temp mean_ndvi : Option ℚ) : CellFields :=
  match raw_temp, mean_ndvi with
  | some raw, some nd =>
      let temp_celsius := dnToCelsius raw
      let heat_score := temp_celsius - 3/10 * nd
      ⟨some (round2 temp_celsius), some (round3 nd), some (round2 heat_score)⟩
  | _, _ => ⟨none, none, none⟩

/-- The batch mode per cell, reading both means from the rasters with the
cell-polygon query (`zonal_stats(gdf_reprojected, raster, stats=["mean"])`,
grid_service.py lines 292-298 and 326-332). -/
def batchCellFields (tempRaster ndviRaster : Raster) (cell : GridCell) : CellFields :=
  batchCellFieldsOfMeans (tempRaster (.cellPolygon cell)) (ndviRaster (.cellPolygon cell))

/-! ## Parent-cell key and the two-tier cache (`parent_cell_service`)

`create_parent_cell_key(lat, lon)` is
`f"parent_{round(lat, 2)}_{round(lon, 2)}"`.  The f-string renders the
rounded float through Python's shortest-repr rule; for a value that is a
multiple of 0.01 this prints the integer part, a dot, and the fractional
digits with any trailing zero dropped (`51.5` not `51.50`, and `51.0` for
a whole number).  We model the rounded coordinate by the integer
`round(100 * x)` and render that integer accordingly. -/

/-- The character for a decimal digit `d < 10`. -/
def digitChar : ℕ → Char
  | 0 => '0' | 1 => '1' | 2 => '2' | 3 => '3' | 4 => '4'
  | 5 => '5' | 6 => '6' | 7 => '7' | 8 => '8' | 9 => '9'
  | _ => '*'

/-- Little-endian base-10 digits with an explicit fuel argument, so the
recursion is structural and the function kernel-computable; with fuel at
least `n` it agrees with `Nat.digits 10 n`. -/
def toDigitsRevAux : ℕ → ℕ → List ℕ
  | _, 0 => []
  | 0, _ + 1 => []
  | f + 1, n + 1 => (n + 1) % 10 :: toDigitsRevAux f ((n + 1) / 10)

/-- Decimal rendering of a natural number (big-endian digit characters). -/
def natToChars (n : ℕ) : List Char :=
  if n = 0 then ['0'] else (toDigitsRevAux n n).reverse.map digitChar

/-- Rendering of the fractional part `f < 100` of a two-decimal float, as
Python repr prints it: `"0"` for zero, a single digit when the second
decimal is zero, and `0`-padded two digits otherwise. -/
def fracChars2 (f : ℕ) : List Char :=
  if f = 0 then ['0']
  else if f % 10 = 0 then [digitChar (f / 10)]
  else if f < 10 then ['0', digitChar f]
  else [digitChar (f / 10), digitChar (f % 10)]

/-- Python repr of the float `c / 100` (for `c = round(100 * x)`), as a
character list: optional minus sign, integer part, dot, fractional part. -/
def qToChars2 (c : ℤ) : List Char :=
  (if c < 0 then ['-'] else []) ++ natToChars (c.natAbs / 100) ++ '.' :: fracChars2 (c.natAbs % 100)

/-- `round(x, 2)` scaled to an integer: the integer nearest `100 * x`,
ties to even. -/
def pyRound2Int (x : ℚ) : ℤ := roundHalfEven (100 * x)

/-- `ParentCellService.create_parent_cell_key` (parent_cell_service.py
lines 23-46): `f"parent_{round(lat, 2)}_{round(lon, 2)}"`. -/
def create_parent_cell_key (lat lon : ℚ) : String :=
  ⟨"parent_".data ++ qToChars2 (pyRound2Int lat) ++ '_' :: qToChars2 (pyRound2Int lon)⟩

/-- `ParentCellService.calculate_parent_bbox` (lines 48-74): snap the
coordinate down to the 0.01° grid and span one grid step. -/
structure ParentBbox where
  bbox_min_lat : ℚ
  bbox_max_lat : ℚ
  bbox_min_lon : ℚ
  bbox_max_lon : ℚ
  center_lat : ℚ
  center_lon : ℚ
  deriving Repr, DecidableEq

def calculate_parent_bbox (lat lon : ℚ) : ParentBbox :=
  let g : ℚ := 1/100
  let lat_grid : ℚ := (⌊lat / g⌋ : ℚ) * g
  let lon_grid : ℚ := (⌊lon / g⌋ : ℚ) * g
  { bbox_min_lat := lat_grid
    bbox_max_lat := lat_grid + g
    bbox_min_lon := lon_grid
    bbox_max_lon := lon_grid + g
    center_lat := lat_grid + g / 2
    center_lon := lon_grid + g / 2 }

/-- A row of the `parent_cells` table (the columns the cache logic reads). -/
structure ParentCellRow where
  cell_key : String
  total_scans : ℕ
  bbox : ParentBbox
  deriving Repr, DecidableEq

/-- The `parent_cells` table; `cell_key` carries a UNIQUE constraint. -/
abbrev ParentTable : Type := List ParentCellRow

/-- Insert into `parent_cells`: the UNIQUE constraint on `cell_key`
rejects the insert when a row with the same key already exists. -/
def insertParentCell (db : ParentTable) (row : ParentCellRow) : Except Unit ParentTable :=
  if db.any (fun r => r.cell_key == row.cell_key) then .error () else .ok (db ++ [row])

/-- `ParentCellService.create_parent_cell` (lines 115-170): build the key
and bbox, insert the row with `total_scans = 1`.  The `except` clause logs
and re-raises, so an insert failure (in particular a unique-key conflict)
propagates to the caller as an error. -/
def create_parent_cell (db : ParentTable) (lat lon : ℚ) :
    Except Unit (ParentTable × ParentCellRow) :=
  let row : ParentCellRow :=
    { cell_key := create_parent_cell_key lat lon
      total_scans := 1
      bbox := calculate_parent_bbox lat lon }
  match insertParentCell db row with
  | .ok db' => .ok (db', row)
  | .error e => .error e

/-- `ParentCellService.find_existing_parent_cell` (lines 76-113): look the
key up; the first matching row or `None`. -/
def find_existing_parent_cell (db : ParentTable) (lat lon : ℚ) : Option ParentCellRow :=
  (db.filter (fun r => r.cell_key == create_parent_cell_key lat lon)).head?

/-- `ParentCellService.increment_scan_count` (lines 172-188): read the
row's counter and write it back incremented. -/
def increment_scan_count (db : ParentTable) (key : String) : ParentTable :=
  db.map (fun r => if r.cell_key == key then { r with total_scans := r.total_scans + 1 } else r)

/-- The find-or-create flow of the heatmap endpoint
(`heatmap.py` lines 487-600): a found parent is a cache hit whose scan
counter is incremented; otherwise a new parent cell is created (its insert
may fail on a concurrent duplicate, which propagates). -/
def findOrCreateParent (db : ParentTable) (lat lon : ℚ) :
    Except Unit (ParentTable × ParentCellRow × Bool) :=
  match find_existing_parent_cell db lat lon with
  | some p => .ok (increment_scan_count db p.cell_key, p, true)
  | none =>
      match create_parent_cell db lat lon with
      | .ok (db', row) => .ok (db', row, false)
      | .error e => .error e

/-- Number of `parent_cells` rows carrying a given key. -/
def keyCount (db : ParentTable) (key : String) : ℕ :=
  (db.filter (fun r => r.cell_key == key)).length

/-! ## Hotspot detector (`hotspot_detector.py`)

A Python dict field is `absent` (key missing), `null` (key present with
value `None`) or `val v`.  `d.get(k)` gives `None` for the first two;
`d.get(k, 0)` gives `0` only when the key is absent, and still `None` when
the key is present with a null value; comparing that `None` against a
float raises `TypeError`. -/

inductive Field (α : Type) where
  | absent
  | null
  | val (a : α)
  deriving Repr, DecidableEq

/-- `c.get("heat_score", 0) >= threshold`-style access: the default only
covers the absent key; a present null makes the comparison raise. -/
def Field.getOrZero : Field ℚ → Except Unit ℚ
  | .absent => .ok 0
  | .null => .error ()
  | .val v => .ok v

/-- Whether the field holds an actual value. -/
def Field.isVal : Field ℚ → Bool
  | .val _ => true
  | _ => false

/-- The value `c.get("heat_score", 0)` evaluates to when it does not
raise: the stored value, or `0` for an absent key. -/
def Field.valOrZero : Field ℚ → ℚ
  | .val v => v
  | _ => 0

/-- A cell as seen by the hotspot detector: only its identity and its
`heat_score` entry matter to the selection logic. -/
structure HCell where
  cell_id : String
  heat_score : Field ℚ
  deriving Repr, DecidableEq

/-- `HotspotDetector._extract_heat_scores`: keep `c["heat_score"]` for the
cells where `c.get("heat_score")` is not `None`. -/
def extractHeatScores (cells : List HCell) : List ℚ :=
  cells.filterMap (fun c => match c.heat_score with | .val v => some v | _ => none)

/-- Linear interpolation at fractional index `h` into a list, by peeling:
`interpAt (x :: y :: rest) h` is `x + h * (y - x)` for `h < 1` and
descends with `h - 1` otherwise.  For `0 ≤ h ≤ n - 1` over a list of
length `n` this is the `numpy` rule
`a[⌊h⌋] + (h - ⌊h⌋) * (a[⌊h⌋ + 1] - a[⌊h⌋])`. -/
def interpAt : List ℚ → ℚ → ℚ
  | [], _ => 0
  | [x], _ => x
  | x :: y :: rest, h => if h < 1 then x + h * (y - x) else interpAt (y :: rest) (h - 1)

/-- `np.percentile(a, q)` with the default linear interpolation: sort
ascending and interpolate at virtual index `h = (n-1) * q/100`. -/
def npPercentile (scores : List ℚ) (q : ℚ) : ℚ :=
  let a := scores.insertionSort (· ≤ ·)
  let n := a.length
  interpAt a (((n : ℚ) - 1) * q / 100)

/-- `np.mean`. -/
def npMean (l : List ℚ) : ℚ := l.sum / l.length

/-- The selection pass `[c for c in cells if c.get("heat_score", 0) >= threshold]`:
left-to-right, raising when a present-null score is compared. -/
def selectGE (threshold : ℚ) : List HCell → Except Unit (List HCell)
  | [] => .ok []
  | c :: cs =>
      match c.heat_score.getOrZero with
      | .error e => .error e
      | .ok v =>
          match selectGE threshold cs with
          | .error e => .error e
          | .ok rest => .ok (if threshold ≤ v then c :: rest else rest)

/-- `HotspotDetector.detect_by_percentile` (hotspot_detector.py lines
21-54): empty extracted scores short-circuit to `([], 0.0)`; otherwise the
percentile parameter is clamped to `[0, 1]`, the threshold is
`np.percentile(heat_scores, (1 - p) * 100)`, and cells with
`c.get("heat_score", 0) >= threshold` are selected. -/
def detect_by_percentile (cells : List HCell) (top_percentile : ℚ) :
    Except Unit (List HCell × ℚ) :=
  let heat_scores := extractHeatScores cells
  if heat_scores.isEmpty then .ok ([], 0) else
  let p := max (min top_percentile 1) 0
  let threshold := npPercentile heat_scores ((1 - p) * 100)
  match selectGE threshold cells with
  | .error e => .error e
  | .ok hotspots => .ok (hotspots, threshold)

/-- `HotspotDetector.detect_by_stddev` (lines 56-79): threshold is
`mean + sigma * std`; `np.std` involves a real square root, so the square
root on the (rational) population variance is a parameter of the model.
The selection pass is the same raising comparison. -/
def detect_by_stddev (sqrtFn : ℚ → ℚ) (cells : List HCell) (sigma : ℚ) :
    Except Unit (List HCell × ℚ) :=
  let heat_scores := extractHeatScores cells
  if heat_scores.isEmpty then .ok ([], 0) else
  let mean := npMean heat_scores
  let std := sqrtFn (npMean (heat_scores.map (fun x => (x - mean) ^ 2)))
  let threshold := mean + sigma * std
  match selectGE threshold cells with
  | .error e => .error e
  | .ok hotspots => .ok (hotspots, threshold)

/-! ## Downstream dedup gate (`heatmap.analyze_hotspot_cells_with_ai`)

Rows loaded from the `child_cells` table always carry their primary key
`id`; the `analyzed` flag is nullable in the dict model, and
`analyzed=True` means "pending analysis" while `analyzed=False` means
"analysis complete" (the inverted polarity documented in the code). -/

/-- A `child_cells` row as the gate sees it. -/
structure ChildCellRow where
  id : String
  cell_id : String
  center_lat : ℚ
  center_lon : ℚ
  temperature : Field ℚ
  ndvi : Field ℚ
  heat_score : Field ℚ
  analyzed : Option Bool
  ai_analysis_id : Option String
  deriving Repr, DecidableEq

/-- A `cell_analyses` row (the columns the dedup logic reads). -/
structure CellAnalysisRow where
  id : String
  child_cell_id : String
  parent_cell_id : String
  latitude : ℚ
  longitude : ℚ
  temperature : Field ℚ
  ndvi : Field ℚ
  heat_score : Field ℚ
  mission_generated : Option Bool
  deriving Repr, DecidableEq

/-- Step 1 of the guard sequence (heatmap.py line 142): keep only cells
whose flag reads Pending (`analyzed is True`). -/
def cellsNeedAnalysis (hotspotCells : List ChildCellRow) : List ChildCellRow :=
  hotspotCells.filter (fun c => c.analyzed == some true)

/-- The backup query (heatmap.py lines 159-165): the `child_cell_id`s of
all `cell_analyses` rows whose `child_cell_id` is among the candidates. -/
def existingAnalysisIds (analyses : List CellAnalysisRow) (ids : List String) : List String :=
  (analyses.filter (fun a => ids.contains a.child_cell_id)).map (fun a => a.child_cell_id)

/-- Steps 1-2 of the guard sequence (heatmap.py lines 142-174): filter to
Pending cells, then drop every cell that already has a `cell_analyses`
record. -/
def gateCandidates (hotspotCells : List ChildCellRow) (analyses : List CellAnalysisRow) :
    List ChildCellRow :=
  let need := cellsNeedAnalysis hotspotCells
  let ids := need.map (fun c => c.id)
  let existing := existingAnalysisIds analyses ids
  need.filter (fun c => !(existing.contains c.id))

/-- Step 3 (heatmap.py lines 204-211): when more candidates survive than
`max_cells`, a random subset of size `max_cells` is drawn
(`random.sample`); the draw is modelled by a sampling function that the
correctness statements require to return a subset of its input. -/
def gateSelection (hotspotCells : List ChildCellRow) (analyses : List CellAnalysisRow)
    (sample : List ChildCellRow → List ChildCellRow) (maxCells : ℕ) : List ChildCellRow :=
  let cand := gateCandidates hotspotCells analyses
  if maxCells < cand.length then sample cand else cand

/-- The persistent state the gate's per-cell attempt mutates. -/
structure GateState where
  childCells : List ChildCellRow
  analyses : List CellAnalysisRow
  deriving Repr, DecidableEq

/-- Outcome of one external-analyzer attempt for one cell: the analyzer
(and the subsequent `cell_analyses` insert) either succeeds, the insert
returning the new row's id, or raises. -/
inductive AttemptOutcome where
  | success (analysisId : String)
  | failure
  deriving Repr, DecidableEq

/-- Observable persistence effects of one attempt, in order. -/
inductive GateEvent where
  | insertAnalysis (childCellId : String)
  | setAnalyzedFalse (childCellId : String)
  deriving Repr, DecidableEq

/-- `UPDATE child_cells SET analyzed = false [, ai_analysis_id = _] WHERE id = cid`. -/
def setAnalyzedFalse (cells : List ChildCellRow) (cid : String) (aid : Option String) :
    List ChildCellRow :=
  cells.map (fun c =>
    if c.id == cid then
      { c with analyzed := some false,
               ai_analysis_id := match aid with | some a => some a | none => c.ai_analysis_id }
    else c)

/-- One iteration of the analysis loop (heatmap.py lines 225-334) for a
selected cell.  On success: insert the `cell_analyses` row (copying the
cell's coordinates and metrics, with `mission_generated = False`), then
flip the cell's flag to Complete (`analyzed = False`) recording the
analysis id.  On any exception: log and still flip the flag to Complete.
Returns the new state and the ordered list of persistence events. -/
def processCell (st : GateState) (parentId : String) (cell : ChildCellRow)
    (outcome : AttemptOutcome) : GateState × List GateEvent :=
  match outcome with
  | .success analysisId =>
      let row : CellAnalysisRow :=
        { id := analysisId
          child_cell_id := cell.id
          parent_cell_id := parentId
          latitude := cell.center_lat
          longitude := cell.center_lon
          temperature := cell.temperature
          ndvi := cell.ndvi
          heat_score := cell.heat_score
          mission_generated := some false }
      ({ childCells := setAnalyzedFalse st.childCells cell.id (some analysisId)
         analyses := st.analyses ++ [row] },
       [.insertAnalysis cell.id, .setAnalyzedFalse cell.id])
  | .failure =>
      ({ st with childCells := setAnalyzedFalse st.childCells cell.id none },
       [.setAnalyzedFalse cell.id])

/-! ## Mission generation (`mission_generation_service.py`)

`generate_missions_from_analyses` runs against the `cell_analyses` and
`missions` tables.  The haversine distance to the user is a float/trig
computation and enters only as the sort key, so it is a parameter; the
fallibility of `_create_mission_from_analysis` (analyzer/insert failures,
all caught and skipped) and of the `mission_generated` flag update (caught
and logged) are modelled by oracles saying which analysis ids succeed. -/

/-- A `missions` row (the columns the dedup logic reads). -/
structure MissionRow where
  cell_analysis_id : String
  user_id : String
  deriving Repr, DecidableEq

/-- The persistent state mission generation reads and writes. -/
structure MissionGenState where
  analyses : List CellAnalysisRow
  missions : List MissionRow
  deriving Repr, DecidableEq

/-- The hotspot filter (mission_generation_service.py lines 65-68):
`a.get('heat_score') and a['heat_score'] >= 11.0` — an absent, null or
zero (falsy) heat score fails the first conjunct. -/
def isHotspotAnalysis (a : CellAnalysisRow) : Bool :=
  match a.heat_score with
  | .val v => decide (v ≠ 0) && decide (11 ≤ v)
  | _ => false

/-- `UPDATE cell_analyses SET mission_generated = true WHERE id = aid`. -/
def setMissionGenerated (analyses : List CellAnalysisRow) (aid : String) :
    List CellAnalysisRow :=
  analyses.map (fun a => if a.id == aid then { a with mission_generated := some true } else a)

/-- The creation loop (lines 141-164): for each analysis to create, try to
create the mission (`createOk`); on success record the mission row and try
to set the analysis's `mission_generated` flag (`flagOk`, failures caught
and logged); on failure continue with the next analysis. -/
def missionLoop (userId : String) (createOk flagOk : String → Bool) :
    List CellAnalysisRow → MissionGenState → MissionGenState × List MissionRow
  | [], st => (st, [])
  | a :: rest, st =>
      if createOk a.id then
        let m : MissionRow := { cell_analysis_id := a.id, user_id := userId }
        let st1 : MissionGenState :=
          { analyses := if flagOk a.id then setMissionGenerated st.analyses a.id else st.analyses
            missions := st.missions ++ [m] }
        let (st2, ms) := missionLoop userId createOk flagOk rest st1
        (st2, m :: ms)
      else
        missionLoop userId createOk flagOk rest st

/-- `MissionGenerationService.generate_missions_from_analyses` (lines
23-174): load the parent's analyses; keep hotspot ones; first layer —
drop analyses with `mission_generated == True`; second layer (backup) —
drop analyses that already have a mission for this user; sort the rest by
distance to the user; cap at `max_missions`; then create missions,
flagging each analysis. -/
def generate_missions_from_analyses (st : MissionGenState) (parentId userId : String)
    (dist : CellAnalysisRow → ℚ) (maxMissions : ℕ) (createOk flagOk : String → Bool) :
    MissionGenState × List MissionRow :=
  let analyses := st.analyses.filter (fun a => a.parent_cell_id == parentId)
  if analyses.isEmpty then (st, []) else
  let hotspot := analyses.filter isHotspotAnalysis
  if hotspot.isEmpty then (st, []) else
  let notGenerated := hotspot.filter (fun a => !(a.mission_generated == some true))
  if notGenerated.isEmpty then (st, []) else
  let ids := notGenerated.map (fun a => a.id)
  let existing := (st.missions.filter
    (fun m => ids.contains m.cell_analysis_id && m.user_id == userId)).map
      (fun m => m.cell_analysis_id)
  let newAnalyses := notGenerated.filter (fun a => !(existing.contains a.id))
  if newAnalyses.isEmpty then (st, []) else
  let sorted := newAnalyses.insertionSort (fun a b => dist a ≤ dist b)
  let toCreate := sorted.take maxMissions
  missionLoop userId createOk flagOk toCreate st

/-- Parameters of one invocation of mission generation. -/
structure MissionInvocation where
  parentId : String
  userId : String
  dist : CellAnalysisRow → ℚ
  maxMissions : ℕ
  createOk : String → Bool
  flagOk : String → Bool

/-- A sequence of invocations of mission generation (any users, any
parents, any outcomes), run left to right against the shared store. -/
def runMissionInvocations : List MissionInvocation → MissionGenState → MissionGenState
  | [], st => st
  | inv :: rest, st =>
      runMissionInvocations rest
        (generate_missions_from_analyses st inv.parentId inv.userId inv.dist
          inv.maxMissions inv.createOk inv.flagOk).1

/-- The (analysis, user) pair of a mission row. -/
def missionPair (m : MissionRow) : String × String := (m.cell_analysis_id, m.user_id)

/-! ## Concrete instances used by the claim checks -/

/-- The exact per-cell heat-score equation on the returned (nullable)
response fields: whenever all three fields are present,
`heat_score = temp - 0.3 * ndvi` exactly. -/
def heatEquationExact (r : CellFields) : Prop :=
  ∀ t n h : ℚ, r.temp = some t → r.ndvi = some n → r.heat_score = some h →
    h = t - 3/10 * n

/-- The ten-cell fixture of the percentile test property: heat scores
`[10, 12, 14, 16, 18, 20, 22, 24, 26, 28]`. -/
def exampleDetectorCells : List HCell :=
  [⟨"c0", .val 10⟩, ⟨"c1", .val 12⟩, ⟨"c2", .val 14⟩, ⟨"c3", .val 16⟩, ⟨"c4", .val 18⟩,
   ⟨"c5", .val 20⟩, ⟨"c6", .val 22⟩, ⟨"c7", .val 24⟩, ⟨"c8", .val 26⟩, ⟨"c9", .val 28⟩]

/-- A 30 m grid cell at the origin (`mkGridCell 0 0 0 0 (30/111000)`). -/
def ceGridCell : GridCell := mkGridCell 0 0 0 0 (30/111000)

/-- One fixed temperature raster: raw digital numbers averaging to 20 °C
over the 100 m circular buffer around the origin cell's center and to
30 °C over the cell polygon itself (a raster that is hot inside the 30 m
cell and cooler over the surrounding disc realises exactly these means). -/
def ceTempRaster : Raster := fun q =>
  match q with
  | .circle _ _ _ => some (14415000000/341802)
  | .cellPolygon _ => some (15415000000/341802)

/-- A vegetation-index raster that is 0 everywhere. -/
def ceNdviRaster : Raster := fun _ => some 0

/-- A `parent_cells` table already holding the row for the key of
`(51.532, -0.053)`, as left behind by a concurrent identical insert. -/
def conflictDb : ParentTable :=
  [{ cell_key := create_parent_cell_key (51532/1000) (-53/1000)
     total_scans := 1
     bbox := calculate_parent_bbox (51532/1000) (-53/1000) }]

/-- A Pending child cell used by the gate checks. -/
def pendingCellRow : ChildCellRow :=
  { id := "cc1", cell_id := "cell_0_0", center_lat := 0, center_lon := 0,
    temperature := .val 30, ndvi := .val 0, heat_score := .val 30,
    analyzed := some true, ai_analysis_id := none }

/-- An existing `cell_analyses` row referencing `pendingCellRow`. -/
def existingAnalysisRow : CellAnalysisRow :=
  { id := "an1", child_cell_id := "cc1", parent_cell_id := "p1",
    latitude := 0, longitude := 0, temperature := .val 30, ndvi := .val 0,
    heat_score := .val 30, mission_generated := some false }

/-- Initial store for the mission-generation check: one hotspot analysis
(`existingAnalysisRow`, heat score 30), no missions. -/
def exampleMissionState : MissionGenState := ⟨[existingAnalysisRow], []⟩

/-- One concrete mission-generation invocation for that store. -/
def exampleMissionInvocation : MissionInvocation :=
  ⟨"p1", "user1", fun _ => 0, 5, fun _ => true, fun _ => true⟩

/-!
# Theorems
-/

/-! ## Rounding error bounds -/

theorem roundHalfEven_sub_le (x : ℚ) : |(roundHalfEven x : ℚ) - x| ≤ 1/2 := by
  have h0 : (0:ℚ) ≤ x - ⌊x⌋ := by
    have := Int.floor_le x; linarith
  have h1 : x - ⌊x⌋ < 1 := by
    have := Int.lt_floor_add_one x; push_cast at *; linarith
  simp only [roundHalfEven]
  split_ifs <;> rw [abs_le] <;> push_cast <;> constructor <;> linarith

theorem round2_sub_le (x : ℚ) : |round2 x - x| ≤ 1/200 := by
  have h := roundHalfEven_sub_le (100 * x)
  unfold round2
  rw [show (roundHalfEven (100*x) : ℚ)/100 - x = ((roundHalfEven (100*x) : ℚ) - 100*x)/100 by ring,
    abs_div, show |(100:ℚ)| = 100 by norm_num]
  linarith

theorem round3_sub_le (x : ℚ) : |round3 x - x| ≤ 1/2000 := by
  have h := roundHalfEven_sub_le (1000 * x)
  unfold round3
  rw [show (roundHalfEven (1000*x) : ℚ)/1000 - x = ((roundHalfEven (1000*x) : ℚ) - 1000*x)/1000 by ring,
    abs_div, show |(1000:ℚ)| = 1000 by norm_num]
  linarith

/-! ## C4 — the batch heat-score equation -/

/-- **C4, counterexample.**  The equation `heat_score = temp - 0.3 * ndvi`
does *not* hold exactly on the returned per-cell fields: for the raw
temperature mean whose Celsius conversion is exactly 30 and an NDVI mean
of 0.005, the batch computation returns `temp = 30`, `ndvi = 0.005` and
`heat_score = 30` (the exact value 29.9985 rounded to 2 decimals), and
`30 ≠ 30 - 0.3 * 0.005`. -/
theorem batch_heat_equation_not_exact_on_returned_fields :
    ¬ heatEquationExact (batchCellFieldsOfMeans (some (15415000000/341802)) (some (1/200))) := by
  intro hex
  have h := hex 30 (1/200) 30
    (by norm_num [batchCellFieldsOfMeans, round2, dnToCelsius, roundHalfEven])
    (by norm_num [batchCellFieldsOfMeans, round3, roundHalfEven])
    (by norm_num [batchCellFieldsOfMeans, round2, dnToCelsius, roundHalfEven])
  norm_num at h

/-- **C4, amended.**  For every cell whose two means are non-null the
batch computation derives the heat score as
`temp_celsius - 0.3 * ndvi` exactly on the *unrounded* values, where
`temp_celsius` comes from the raw mean through the sensor's linear scale
and offset (`Kelvin = raw * 0.00341802 + 149.0`) and Kelvin→Celsius
(`- 273.15`); the returned fields are these values rounded (temp to 2,
ndvi to 3, heat to 2 decimals), so on the returned fields the equation
holds within 0.01015 rather than exactly. -/
theorem batch_heat_score_equation (raw nd t n h : ℚ)
    (ht : (batchCellFieldsOfMeans (some raw) (some nd)).temp = some t)
    (hn : (batchCellFieldsOfMeans (some raw) (some nd)).ndvi = some n)
    (hh : (batchCellFieldsOfMeans (some raw) (some nd)).heat_score = some h) :
    h = round2 (dnToCelsius raw - 3/10 * nd) ∧
    t = round2 (dnToCelsius raw) ∧
    n = round3 nd ∧
    |h - (t - 3/10 * n)| ≤ 203/20000 := by
  have ht' : t = round2 (dnToCelsius raw) := by
    simpa [batchCellFieldsOfMeans] using ht.symm
  have hn' : n = round3 nd := by
    simpa [batchCellFieldsOfMeans] using hn.symm
  have hh' : h = round2 (dnToCelsius raw - 3/10 * nd) := by
    simpa [batchCellFieldsOfMeans] using hh.symm
  refine ⟨hh', ht', hn', ?_⟩
  subst ht' hn' hh'
  set T := dnToCelsius raw with hT
  have b1 := round2_sub_le (T - 3/10 * nd)
  have b2 := round2_sub_le T
  have b3 := round3_sub_le nd
  have e1 := abs_sub_abs_le_abs_sub (round2 (T - 3/10 * nd)) (T - 3/10 * nd)
  calc |round2 (T - 3/10 * nd) - (round2 T - 3/10 * round3 nd)|
      = |(round2 (T - 3/10 * nd) - (T - 3/10 * nd))
          - (round2 T - T) + (3/10) * (round3 nd - nd)| := by ring_nf
    _ ≤ |round2 (T - 3/10 * nd) - (T - 3/10 * nd)
          - (round2 T - T)| + |(3/10) * (round3 nd - nd)| := abs_add _ _
    _ ≤ |round2 (T - 3/10 * nd) - (T - 3/10 * nd)| + |round2 T - T|
          + |(3/10) * (round3 nd - nd)| := by
            have := abs_sub (round2 (T - 3/10 * nd) - (T - 3/10 * nd)) (round2 T - T)
            linarith
    _ ≤ 1/200 + 1/200 + (3/10) * (1/2000) := by
          rw [abs_mul, show |(3/10 : ℚ)| = 3/10 by norm_num]
          have : |round3 nd - nd| ≤ 1/2000 := b3
          nlinarith
    _ = 203/20000 := by norm_num

/-- **C4, witness for the amended theorem** at raw mean 0 and NDVI 0.01. -/
theorem batch_heat_score_equation_witness :
    (batchCellFieldsOfMeans (some 0) (some (1/100))).temp = some (round2 (dnToCelsius 0)) ∧
    |round2 (dnToCelsius 0 - 3/10 * (1/100))
      - (round2 (dnToCelsius 0) - 3/10 * round3 (1/100))| ≤ 203/20000 := by
  refine ⟨by simp [batchCellFieldsOfMeans], ?_⟩
  have h := batch_heat_score_equation 0 (1/100)
    (round2 (dnToCelsius 0)) (round3 (1/100)) (round2 (dnToCelsius 0 - 3/10 * (1/100)))
    (by simp [batchCellFieldsOfMeans]) (by simp [batchCellFieldsOfMeans])
    (by simp [batchCellFieldsOfMeans])
  exact h.2.2.2

/-! ## Hotspot-detector lemmas and C9 / C10 -/

/-- A present-null heat score anywhere in the list makes the selection
pass raise. -/
theorem selectGE_error_of_null (t : ℚ) :
    ∀ cells : List HCell, (∃ c ∈ cells, c.heat_score = .null) →
      selectGE t cells = .error ()
  | [], h => by simp at h
  | c :: cs, h => by
      rcases h with ⟨d, hd, hnull⟩
      rcases List.mem_cons.mp hd with rfl | hmem
      · simp [selectGE, hnull, Field.getOrZero]
      · cases hh : c.heat_score with
        | null => simp [selectGE, hh, Field.getOrZero]
        | absent =>
            have ih := selectGE_error_of_null t cs ⟨d, hmem, hnull⟩
            simp [selectGE, hh, Field.getOrZero, ih]
        | val v =>
            have ih := selectGE_error_of_null t cs ⟨d, hmem, hnull⟩
            simp [selectGE, hh, Field.getOrZero, ih]

/-- Without present-null scores the selection pass returns exactly the
cells whose (defaulted) score reaches the threshold. -/
theorem selectGE_ok_of_no_null (t : ℚ) :
    ∀ cells : List HCell, (∀ c ∈ cells, c.heat_score ≠ .null) →
      selectGE t cells = .ok (cells.filter (fun c => decide (t ≤ c.heat_score.valOrZero)))
  | [], _ => by simp [selectGE]
  | c :: cs, h => by
      have ih := selectGE_ok_of_no_null t cs (fun d hd => h d (List.mem_cons_of_mem _ hd))
      have hc := h c (List.mem_cons_self _ _)
      cases hh : c.heat_score with
      | null => exact absurd hh hc
      | absent => simp [selectGE, hh, Field.getOrZero, ih, List.filter_cons, Field.valOrZero]
      | val v => simp [selectGE, hh, Field.getOrZero, ih, List.filter_cons, Field.valOrZero]

/-- A cell with an actual value makes the extracted score list nonempty. -/
theorem extractHeatScores_ne_nil {cells : List HCell}
    (hval : ∃ c ∈ cells, c.heat_score.isVal = true) :
    extractHeatScores cells ≠ [] := by
  rcases hval with ⟨c, hc, hv⟩
  cases hh : c.heat_score with
  | val v =>
      intro hnil
      have : v ∈ extractHeatScores cells := by
        unfold extractHeatScores
        exact List.mem_filterMap.mpr ⟨c, hc, by rw [hh]⟩
      rw [hnil] at this
      exact absurd this (List.not_mem_nil v)
  | null => rw [hh] at hv; simp [Field.isVal] at hv
  | absent => rw [hh] at hv; simp [Field.isVal] at hv

/-- **C9.**  For the percentile strategy the threshold is the score at the
`(1 - p)` quantile (after clamping `p` to `[0, 1]`) of the non-null heat
scores, and exactly the cells whose score reaches the threshold are
selected: on input without present-null scores, `detect_by_percentile`
returns the filtered cell list together with that threshold.  The witness
instantiates the ten-score fixture `[10, 12, ..., 28]` with `p = 0.2`,
whose selection is exactly the cells scoring 26 and 28. -/
theorem percentile_detection_selects_top_fraction
    (cells : List HCell) (p : ℚ)
    (hnonull : ∀ c ∈ cells, c.heat_score ≠ .null)
    (hval : ∃ c ∈ cells, c.heat_score.isVal = true) :
    detect_by_percentile cells p =
      .ok (cells.filter (fun c =>
            decide (npPercentile (extractHeatScores cells) ((1 - max (min p 1) 0) * 100)
              ≤ c.heat_score.valOrZero)),
          npPercentile (extractHeatScores cells) ((1 - max (min p 1) 0) * 100)) := by
  have hne := extractHeatScores_ne_nil hval
  have hE : (extractHeatScores cells).isEmpty = false := by
    cases hE : (extractHeatScores cells).isEmpty
    · rfl
    · exact absurd (List.isEmpty_iff.mp hE) hne
  have hsel := selectGE_ok_of_no_null
    (npPercentile (extractHeatScores cells) ((1 - max (min p 1) 0) * 100)) cells hnonull
  simp only [detect_by_percentile, hE, Bool.false_eq_true, if_false, hsel]

/-- **C9, witness**: the fixture `[10, 12, ..., 28]` with `p = 0.2`
selects exactly the cells scoring 26 and 28, with threshold 24.4. -/
theorem percentile_detection_selects_top_fraction_witness :
    (∀ c ∈ exampleDetectorCells, c.heat_score ≠ .null) ∧
    (∃ c ∈ exampleDetectorCells, c.heat_score.isVal = true) ∧
    detect_by_percentile exampleDetectorCells (1/5) =
      .ok ([⟨"c8", .val 26⟩, ⟨"c9", .val 28⟩], 122/5) := by
  refine ⟨?_, ?_, ?_⟩
  · intro c hc
    fin_cases hc <;> simp [exampleDetectorCells]
  · exact ⟨⟨"c0", .val 10⟩, by simp [exampleDetectorCells], rfl⟩
  · have h := percentile_detection_selects_top_fraction exampleDetectorCells (1/5)
      (by intro c hc; fin_cases hc <;> simp [exampleDetectorCells])
      ⟨⟨"c0", .val 10⟩, by simp [exampleDetectorCells], rfl⟩
    rw [h]
    simp only [exampleDetectorCells, extractHeatScores, npPercentile, List.filterMap,
      List.insertionSort, List.orderedInsert]
    norm_num [interpAt, Field.valOrZero, List.filter]

/-- **C10.**  Null heat scores are excluded only while the threshold is
computed; the selection pass applies the comparison to the null value
itself (neither skipping it nor replacing it by 0, which happens only for
an absent key), so any input holding at least one valued score and at
least one present-null score makes both `detect_by_percentile` and
`detect_by_stddev` raise instead of returning a selection. -/
theorem null_score_selection_raises
    (cells : List HCell) (sqrtFn : ℚ → ℚ) (p sigma : ℚ)
    (hval : ∃ c ∈ cells, c.heat_score.isVal = true)
    (hnull : ∃ c ∈ cells, c.heat_score = .null) :
    detect_by_percentile cells p = .error () ∧
    detect_by_stddev sqrtFn cells sigma = .error () := by
  have hne := extractHeatScores_ne_nil hval
  have hE : (extractHeatScores cells).isEmpty = false := by
    cases hE : (extractHeatScores cells).isEmpty
    · rfl
    · exact absurd (List.isEmpty_iff.mp hE) hne
  constructor
  · simp only [detect_by_percentile, hE, Bool.false_eq_true, if_false,
      selectGE_error_of_null _ cells hnull]
  · simp only [detect_by_stddev, hE, Bool.false_eq_true, if_false,
      selectGE_error_of_null _ cells hnull]

/-- **C10, witness**: a two-cell list with scores `5` and present-null. -/
theorem null_score_selection_raises_witness :
    (∃ c ∈ [(⟨"a", .val 5⟩ : HCell), ⟨"b", .null⟩], c.heat_score.isVal = true) ∧
    (∃ c ∈ [(⟨"a", .val 5⟩ : HCell), ⟨"b", .null⟩], c.heat_score = .null) ∧
    detect_by_percentile [(⟨"a", .val 5⟩ : HCell), ⟨"b", .null⟩] (1/5) = .error () ∧
    detect_by_stddev id [(⟨"a", .val 5⟩ : HCell), ⟨"b", .null⟩] (3/2) = .error () := by
  have h := null_score_selection_raises [(⟨"a", .val 5⟩ : HCell), ⟨"b", .null⟩] id (1/5) (3/2)
    ⟨⟨"a", .val 5⟩, by simp, rfl⟩ ⟨⟨"b", .null⟩, by simp, rfl⟩
  exact ⟨⟨⟨"a", .val 5⟩, by simp, rfl⟩, ⟨⟨"b", .null⟩, by simp, rfl⟩, h.1, h.2⟩

/-! ## Dedup-gate theorems: C1 and C3 -/

/-- **C1.**  A child cell that already has a `cell_analyses` row
referencing its id is never submitted to the external analyzer, even when
its flag still reads Pending (`analyzed=True`): the backup cross-check
against the `cell_analyses` table removes it from the candidate set, and
the analyzer loop runs exactly over the (possibly sampled) candidate set,
for any sampling function that returns a subset of its input (as
`random.sample` does). -/
theorem backup_check_never_resubmits
    (hotspotCells : List ChildCellRow) (analyses : List CellAnalysisRow)
    (sample : List ChildCellRow → List ChildCellRow)
    (hsample : ∀ l, ∀ c ∈ sample l, c ∈ l) (maxCells : ℕ) :
    ∀ c ∈ gateSelection hotspotCells analyses sample maxCells,
      ∀ a ∈ analyses, a.child_cell_id ≠ c.id := by
  intro c hc a ha hid
  have hcand : c ∈ gateCandidates hotspotCells analyses := by
    simp only [gateSelection] at hc
    split at hc
    · exact hsample _ c hc
    · exact hc
  unfold gateCandidates at hcand
  simp only [List.mem_filter, Bool.not_eq_eq_eq_not, Bool.not_true] at hcand
  obtain ⟨hneed, hnotex⟩ := hcand
  have hidmem : c.id ∈ (cellsNeedAnalysis hotspotCells).map (fun c => c.id) :=
    List.mem_map.mpr ⟨c, hneed, rfl⟩
  have hamem : c.id ∈ existingAnalysisIds analyses
      ((cellsNeedAnalysis hotspotCells).map (fun c => c.id)) := by
    unfold existingAnalysisIds
    rw [← hid]
    refine List.mem_map.mpr ⟨a, ?_, rfl⟩
    refine List.mem_filter.mpr ⟨ha, ?_⟩
    exact List.elem_eq_true_of_mem (by rw [hid]; exact hidmem)
  have htrue : List.elem c.id (existingAnalysisIds analyses
      ((cellsNeedAnalysis hotspotCells).map (fun c => c.id))) = true :=
    List.elem_eq_true_of_mem hamem
  have hfalse : List.elem c.id (existingAnalysisIds analyses
      ((cellsNeedAnalysis hotspotCells).map (fun c => c.id))) = false := hnotex
  rw [htrue] at hfalse
  exact absurd hfalse (by simp)

/-- **C1, witness**: the Pending cell `pendingCellRow`, whose id already
has the analysis row `existingAnalysisRow`, is not selected. -/
theorem backup_check_never_resubmits_witness :
    pendingCellRow ∉ gateSelection [pendingCellRow] [existingAnalysisRow] (fun x => x) 2 := by
  intro hmem
  exact backup_check_never_resubmits [pendingCellRow] [existingAnalysisRow] (fun x => x)
    (fun l c hc => hc) 2 pendingCellRow hmem existingAnalysisRow (by simp) rfl

/-- Any cell in the gate's selection passed the Pending filter. -/
theorem gateSelection_subset_need
    (hotspotCells : List ChildCellRow) (analyses : List CellAnalysisRow)
    (sample : List ChildCellRow → List ChildCellRow)
    (hsample : ∀ l, ∀ c ∈ sample l, c ∈ l) (maxCells : ℕ) :
    ∀ c ∈ gateSelection hotspotCells analyses sample maxCells,
      c ∈ hotspotCells ∧ c.analyzed = some true := by
  intro c hc
  have hcand : c ∈ gateCandidates hotspotCells analyses := by
    simp only [gateSelection] at hc
    split at hc
    · exact hsample _ c hc
    · exact hc
  unfold gateCandidates at hcand
  have hneed := (List.mem_filter.mp hcand).1
  unfold cellsNeedAnalysis at hneed
  have := List.mem_filter.mp hneed
  refine ⟨this.1, ?_⟩
  have hb := this.2
  simpa using hb

/-- Flag updates set `analyzed = False` on every row with the written id. -/
theorem setAnalyzedFalse_flag (cells : List ChildCellRow) (cid : String) (aid : Option String) :
    ∀ c' ∈ setAnalyzedFalse cells cid aid, c'.id = cid → c'.analyzed = some false := by
  intro c' hc' hid
  unfold setAnalyzedFalse at hc'
  rcases List.mem_map.mp hc' with ⟨orig, _, heq⟩
  by_cases h : orig.id = cid
  · subst heq
    simp [h]
  · have hbeq : (orig.id == cid) = false := by
      simpa using h
    rw [hbeq] at heq
    simp only [Bool.false_eq_true, if_false] at heq
    subst heq
    exact absurd hid h

/-- **C3.**  One analysis attempt for a selected cell triggers the
Pending→Complete transition exactly once, whether the external analyzer
succeeds or raises: the attempt's event trace carries exactly one
`analyzed=False` write for the cell; on success a `cell_analyses` row is
persisted before the flag flip, on failure the flag is still flipped; in
the resulting state every row with the cell's id reads
`analyzed = False`, so no later gate invocation over that state selects
the cell again (failures are terminal, never retried). -/
theorem analysis_attempt_flips_flag_once
    (st : GateState) (parentId : String) (cell : ChildCellRow) (outcome : AttemptOutcome) :
    ((processCell st parentId cell outcome).2.count (GateEvent.setAnalyzedFalse cell.id) = 1) ∧
    (∀ aid, outcome = .success aid →
        (processCell st parentId cell outcome).2
          = [.insertAnalysis cell.id, .setAnalyzedFalse cell.id] ∧
        ∃ row ∈ (processCell st parentId cell outcome).1.analyses,
          row.child_cell_id = cell.id) ∧
    (outcome = .failure →
        (processCell st parentId cell outcome).2 = [.setAnalyzedFalse cell.id]) ∧
    (∀ c' ∈ (processCell st parentId cell outcome).1.childCells,
        c'.id = cell.id → c'.analyzed = some false) ∧
    (∀ loaded : List ChildCellRow,
        (∀ c' ∈ loaded, c' ∈ (processCell st parentId cell outcome).1.childCells) →
        ∀ (analyses' : List CellAnalysisRow) sample (maxCells : ℕ),
          (∀ l, ∀ x ∈ sample l, x ∈ l) →
          ∀ c' ∈ gateSelection loaded analyses' sample maxCells, c'.id ≠ cell.id) := by
  have hflag : ∀ c' ∈ (processCell st parentId cell outcome).1.childCells,
      c'.id = cell.id → c'.analyzed = some false := by
    cases outcome with
    | success aid =>
        simpa [processCell] using setAnalyzedFalse_flag st.childCells cell.id (some aid)
    | failure =>
        simpa [processCell] using setAnalyzedFalse_flag st.childCells cell.id none
  refine ⟨?_, ?_, ?_, hflag, ?_⟩
  · cases outcome <;> simp [processCell, List.count_cons]
  · intro aid hout
    subst hout
    refine ⟨by simp [processCell], ?_⟩
    refine ⟨{ id := aid, child_cell_id := cell.id, parent_cell_id := parentId,
              latitude := cell.center_lat, longitude := cell.center_lon,
              temperature := cell.temperature, ndvi := cell.ndvi,
              heat_score := cell.heat_score, mission_generated := some false }, ?_, rfl⟩
    simp [processCell]
  · intro hout
    subst hout
    simp [processCell]
  · intro loaded hloaded analyses' sample maxCells hsample c' hc' hid
    have hneed := gateSelection_subset_need loaded analyses' sample hsample maxCells c' hc'
    have hmem := hloaded c' hneed.1
    have := hflag c' hmem hid
    rw [this] at hneed
    exact absurd hneed.2 (by simp)

/-- **C3, witness**: a concrete failing attempt on `pendingCellRow` flips
the flag exactly once and the cell is not selected from the new state. -/
theorem analysis_attempt_flips_flag_once_witness :
    ((processCell ⟨[pendingCellRow], []⟩ "p1" pendingCellRow .failure).2.count
      (GateEvent.setAnalyzedFalse pendingCellRow.id) = 1) ∧
    ((processCell ⟨[pendingCellRow], []⟩ "p1" pendingCellRow .failure).2
      = [.setAnalyzedFalse pendingCellRow.id]) ∧
    (∀ c' ∈ gateSelection (processCell ⟨[pendingCellRow], []⟩ "p1" pendingCellRow
        .failure).1.childCells [] (fun x => x) 2, c'.id ≠ pendingCellRow.id) := by
  have h := analysis_attempt_flips_flag_once ⟨[pendingCellRow], []⟩ "p1" pendingCellRow .failure
  refine ⟨h.1, h.2.2.1 rfl, ?_⟩
  exact h.2.2.2.2 _ (fun c' hc' => hc') [] (fun x => x) 2 (fun l x hx => hx)

/-! ## Cache-race behaviour of the parent-cell cache: C7 -/

/-- Scan-counter updates do not touch any row's key. -/
theorem keyCount_increment (db : ParentTable) (k key : String) :
    keyCount (increment_scan_count db k) key = keyCount db key := by
  unfold keyCount increment_scan_count
  rw [List.filter_map, List.length_map]
  congr 1
  apply List.filter_congr
  intro r _
  simp only [Function.comp]
  split <;> rfl

/-- One successful find-or-create pass keeps at most one row per key. -/
theorem findOrCreateParent_keyCount (db : ParentTable) (lat lon : ℚ)
    (h : keyCount db (create_parent_cell_key lat lon) ≤ 1)
    (db1 : ParentTable) (p1 : ParentCellRow) (hit1 : Bool)
    (hok : findOrCreateParent db lat lon = .ok (db1, p1, hit1)) :
    keyCount db1 (create_parent_cell_key lat lon) ≤ 1 := by
  unfold findOrCreateParent at hok
  cases hfind : find_existing_parent_cell db lat lon with
  | some p =>
      rw [hfind] at hok
      dsimp only at hok
      have hdb1 : increment_scan_count db p.cell_key = db1 := by
        injection hok with h1
        injection h1
      rw [← hdb1, keyCount_increment]
      exact h
  | none =>
      rw [hfind] at hok
      dsimp only [create_parent_cell, insertParentCell] at hok
      by_cases hany : (db.any (fun r => r.cell_key == create_parent_cell_key lat lon)) = true
      · rw [if_pos hany] at hok
        exact absurd hok (by simp)
      · rw [if_neg hany] at hok
        dsimp only at hok
        have hdb1 : db ++ [(⟨create_parent_cell_key lat lon, 1,
            calculate_parent_bbox lat lon⟩ : ParentCellRow)] = db1 := by
          injection hok with h1
          injection h1
        have hzero : keyCount db (create_parent_cell_key lat lon) = 0 := by
          have hanyF : (db.any (fun r => r.cell_key == create_parent_cell_key lat lon)) = false := by
            cases hb : (db.any (fun r => r.cell_key == create_parent_cell_key lat lon))
            · rfl
            · exact absurd hb hany
          have hall := List.any_eq_false.mp hanyF
          unfold keyCount
          rw [List.length_eq_zero, List.filter_eq_nil_iff]
          intro r hr
          exact hall r hr
        rw [← hdb1]
        unfold keyCount at hzero ⊢
        rw [List.filter_append, List.length_append, hzero]
        simp

/-- **C7, counterexample.**  A unique-key conflict inside
`create_parent_cell` is *not* recovered by re-reading: the `except`
handler logs and re-raises, so the operation fails with the conflict
propagated to the caller instead of returning the existing row. -/
theorem create_parent_cell_conflict_propagates :
    create_parent_cell conflictDb (51532/1000) (-53/1000) = .error () := by
  unfold create_parent_cell insertParentCell conflictDb
  simp

/-- **C7, amended.**  When the insert of `create_parent_cell` hits a
unique-key conflict because the row for the same `cell_key` already
exists, the operation raises and the conflict propagates to the caller
as an error; no duplicate row is created, and calling the find-or-create
flow twice with the same coordinates never yields two ParentCell rows for
that key (the second call takes the cache-hit path). -/
theorem parent_cell_conflict_amended (db : ParentTable) (lat lon : ℚ) :
    ((∃ r ∈ db, r.cell_key = create_parent_cell_key lat lon) →
        create_parent_cell db lat lon = .error ()) ∧
    (keyCount db (create_parent_cell_key lat lon) ≤ 1 →
      ∀ db1 p1 hit1, findOrCreateParent db lat lon = .ok (db1, p1, hit1) →
        keyCount db1 (create_parent_cell_key lat lon) ≤ 1 ∧
        ∀ db2 p2 hit2, findOrCreateParent db1 lat lon = .ok (db2, p2, hit2) →
          keyCount db2 (create_parent_cell_key lat lon) ≤ 1) := by
  constructor
  · rintro ⟨r, hr, hkey⟩
    unfold create_parent_cell insertParentCell
    dsimp only
    have hany : (db.any (fun q => q.cell_key == create_parent_cell_key lat lon)) = true :=
      List.any_eq_true.mpr ⟨r, hr, by simp [hkey]⟩
    rw [if_pos hany]
  · intro h db1 p1 hit1 hok
    have h1 := findOrCreateParent_keyCount db lat lon h db1 p1 hit1 hok
    exact ⟨h1, fun db2 p2 hit2 hok2 =>
      findOrCreateParent_keyCount db1 lat lon h1 db2 p2 hit2 hok2⟩

/-- **C7, witness for the amended theorem**: the conflicting insert on
`conflictDb` errors, and a first find-or-create on the empty store leaves
a single row for the key. -/
theorem parent_cell_conflict_amended_witness :
    create_parent_cell conflictDb (51532/1000) (-53/1000) = .error () ∧
    keyCount [(⟨create_parent_cell_key (51532/1000) (-53/1000), 1,
        calculate_parent_bbox (51532/1000) (-53/1000)⟩ : ParentCellRow)]
      (create_parent_cell_key (51532/1000) (-53/1000)) ≤ 1 := by
  have hc := parent_cell_conflict_amended conflictDb (51532/1000) (-53/1000)
  have h0 := parent_cell_conflict_amended ([] : ParentTable) (51532/1000) (-53/1000)
  refine ⟨hc.1 ⟨⟨create_parent_cell_key (51532/1000) (-53/1000), 1,
    calculate_parent_bbox (51532/1000) (-53/1000)⟩, by simp [conflictDb], rfl⟩, ?_⟩
  have hok : findOrCreateParent ([] : ParentTable) (51532/1000) (-53/1000) =
      .ok ([⟨create_parent_cell_key (51532/1000) (-53/1000), 1,
        calculate_parent_bbox (51532/1000) (-53/1000)⟩], ⟨create_parent_cell_key (51532/1000)
          (-53/1000), 1, calculate_parent_bbox (51532/1000) (-53/1000)⟩, false) := by
    unfold findOrCreateParent find_existing_parent_cell create_parent_cell insertParentCell
    simp
  exact ((h0.2 (by simp [keyCount])) _ _ _ hok).1

/-! ## Batch vs non-batch equivalence: C5 -/

/-- Two-decimal roundings of nearby values differ by at most one step. -/
theorem round2_diff_le (a b : ℚ) (h : |a - b| ≤ 103/20000) :
    |round2 a - round2 b| ≤ 1/100 := by
  have h1 := roundHalfEven_sub_le (100 * a)
  have h2 := roundHalfEven_sub_le (100 * b)
  set k1 := roundHalfEven (100 * a) with hk1
  set k2 := roundHalfEven (100 * b) with hk2
  have hab : |100 * a - 100 * b| ≤ 103/200 := by
    rw [show (100 : ℚ) * a - 100 * b = 100 * (a - b) by ring, abs_mul,
      show |(100:ℚ)| = 100 by norm_num]
    linarith
  have hk : |(k1 : ℚ) - k2| < 2 := by
    have e1 : |(k1:ℚ) - k2| ≤ |(k1:ℚ) - 100*a| + |(100*a - 100*b) + (100*b - (k2:ℚ))| := by
      calc |(k1:ℚ) - k2| = |((k1:ℚ) - 100*a) + ((100*a - 100*b) + (100*b - (k2:ℚ)))| := by
            ring_nf
        _ ≤ |(k1:ℚ) - 100*a| + |(100*a - 100*b) + (100*b - (k2:ℚ))| := abs_add _ _
    have e2 : |(100*a - 100*b) + (100*b - (k2:ℚ))| ≤ |100*a - 100*b| + |100*b - (k2:ℚ)| :=
      abs_add _ _
    have e3 : |100*b - (k2:ℚ)| = |(k2:ℚ) - 100*b| := abs_sub_comm _ _
    have := abs_sub_comm (100*b) (k2:ℚ)
    calc |(k1:ℚ) - k2| ≤ |(k1:ℚ) - 100*a| + (|100*a - 100*b| + |(k2:ℚ) - 100*b|) := by
          rw [e3] at e2; linarith
      _ ≤ 1/2 + (103/200 + 1/2) := by gcongr
      _ < 2 := by norm_num
  have hkZ : |k1 - k2| ≤ 1 := by
    have hcast : |((k1 - k2 : ℤ) : ℚ)| < 2 := by
      push_cast
      exact hk
    rw [← Int.cast_abs] at hcast
    have : |k1 - k2| < 2 := by exact_mod_cast hcast
    omega
  have hdiv : round2 a - round2 b = ((k1 : ℚ) - k2) / 100 := by
    unfold round2
    rw [← hk1, ← hk2]
    ring
  rw [hdiv, abs_div, show |(100:ℚ)| = 100 by norm_num]
  have : |(k1:ℚ) - k2| ≤ 1 := by
    have : ((|k1 - k2| : ℤ) : ℚ) ≤ 1 := by exact_mod_cast hkZ
    rw [Int.cast_abs] at this
    push_cast at this
    exact this
  linarith

/-- **C5, counterexample.**  On one fixed raster the two modes are not
numerically equivalent: the non-batch mode aggregates the 100 m circular
buffer around the cell center (`get_temperature(..., radius=100)`) while
the batch mode aggregates the cell polygon (`zonal_stats`), so a raster
that is hot inside the 30 m cell and cooler over the surrounding disc
yields heat scores 20 and 30 — differing by far more than the 0.01
tolerance. -/
theorem batch_nonbatch_not_equivalent_on_same_raster :
    (nonBatchCellFields ceTempRaster ceNdviRaster ceGridCell).heat_score = some 20 ∧
    (batchCellFields ceTempRaster ceNdviRaster ceGridCell).heat_score = some 30 ∧
    ¬ (|(20 : ℚ) - 30| ≤ 1/100) := by
  refine ⟨?_, ?_, by norm_num⟩
  · simp only [nonBatchCellFields, landsatGetTemperature, sentinelCalculateNdvi,
      ceTempRaster, ceNdviRaster, Option.map]
    norm_num [dnToCelsius, round2, round3, roundHalfEven]
  · simp only [batchCellFields, batchCellFieldsOfMeans, ceTempRaster, ceNdviRaster]
    norm_num [dnToCelsius, round2, round3, roundHalfEven]

/-- **C5, amended.**  The two modes agree within 0.01 exactly when they
observe the same per-cell means — i.e. when the raster returns the same
mean for the cell's 100 m circular buffer and for the cell polygon, for
both sources.  Under that hypothesis the non-batch heat score (computed
from the pre-rounded service outputs) and the batch heat score differ by
at most 0.01; the divergence exhibited by the counterexample comes only
from the differing aggregation footprints, never from the arithmetic. -/
theorem batch_nonbatch_agree_given_equal_means
    (tempRaster ndviRaster : Raster) (cell : GridCell) (raw nd : ℚ)
    (htempC : tempRaster (.circle cell.center_lat cell.center_lon 100) = some raw)
    (htempP : tempRaster (.cellPolygon cell) = some raw)
    (hndC : ndviRaster (.circle cell.center_lat cell.center_lon 100) = some nd)
    (hndP : ndviRaster (.cellPolygon cell) = some nd) :
    (nonBatchCellFields tempRaster ndviRaster cell).heat_score
      = some (round2 (round2 (dnToCelsius raw) - 3/10 * round3 nd)) ∧
    (batchCellFields tempRaster ndviRaster cell).heat_score
      = some (round2 (dnToCelsius raw - 3/10 * nd)) ∧
    |round2 (round2 (dnToCelsius raw) - 3/10 * round3 nd)
      - round2 (dnToCelsius raw - 3/10 * nd)| ≤ 1/100 := by
  refine ⟨?_, ?_, ?_⟩
  · simp [nonBatchCellFields, landsatGetTemperature, sentinelCalculateNdvi, htempC, hndC]
  · simp [batchCellFields, batchCellFieldsOfMeans, htempP, hndP]
  · apply round2_diff_le
    have b2 := round2_sub_le (dnToCelsius raw)
    have b3 := round3_sub_le nd
    have : round2 (dnToCelsius raw) - 3/10 * round3 nd
        - (dnToCelsius raw - 3/10 * nd)
        = (round2 (dnToCelsius raw) - dnToCelsius raw) - 3/10 * (round3 nd - nd) := by
      ring
    rw [this]
    calc |(round2 (dnToCelsius raw) - dnToCelsius raw) - 3/10 * (round3 nd - nd)|
        ≤ |round2 (dnToCelsius raw) - dnToCelsius raw| + |3/10 * (round3 nd - nd)| := by
          have := abs_sub (round2 (dnToCelsius raw) - dnToCelsius raw)
            (3/10 * (round3 nd - nd))
          linarith
      _ ≤ 1/200 + 3/10 * (1/2000) := by
          rw [abs_mul, show |(3/10:ℚ)| = 3/10 by norm_num]
          have h3 : (3/10 : ℚ) * |round3 nd - nd| ≤ 3/10 * (1/2000) := by nlinarith
          linarith
      _ ≤ 103/20000 := by norm_num

/-- **C5, witness for the amended theorem**: a raster returning mean 0
everywhere for both sources makes both heat scores `-124.15` exactly. -/
theorem batch_nonbatch_agree_given_equal_means_witness :
    (nonBatchCellFields (fun _ => some 0) (fun _ => some 0) ceGridCell).heat_score
      = some (round2 (round2 (dnToCelsius 0) - 3/10 * round3 0)) ∧
    (batchCellFields (fun _ => some 0) (fun _ => some 0) ceGridCell).heat_score
      = some (round2 (dnToCelsius 0 - 3/10 * 0)) ∧
    |round2 (round2 (dnToCelsius 0) - 3/10 * round3 0)
      - round2 (dnToCelsius 0 - 3/10 * 0)| ≤ 1/100 :=
  batch_nonbatch_agree_given_equal_means (fun _ => some 0) (fun _ => some 0) ceGridCell 0 0
    rfl rfl rfl rfl

/-! ## Grid tiling: C8 -/

/-- **C8.**  For every bounding box and `cell_size_m > 0` the grid is the
deterministic row-major tiling by `gridCellAt`: the step lists have
`ceil((max - min) / side)` entries of side `cell_size_m / 111000` degrees;
every cell keeps its full side length (no merging or clipping against the
bbox); vertically and horizontally adjacent cells share their edge
exactly (no gaps, no overlaps — exact in `ℚ`); the cell `(0, 0)` starts
at `(lat_min, lon_min)`; every row starts strictly below `lat_max` (the
final row begins slightly short of it) while the tiling's upper edge
reaches at least `lat_max` (it may extend slightly beyond, unclipped). -/
theorem generate_grid_row_major_tiling
    (lat_min lat_max lon_min lon_max cell_size_m : ℚ) (hpos : 0 < cell_size_m) :
    (generate_grid lat_min lat_max lon_min lon_max cell_size_m
      = ((List.range (arangeLen lat_min lat_max (cell_size_m / 111000))).map (fun i =>
          (List.range (arangeLen lon_min lon_max (cell_size_m / 111000))).map
            (gridCellAt lat_min lon_min (cell_size_m / 111000) i))).flatten) ∧
    (∀ i j : ℕ,
      (gridCellAt lat_min lon_min (cell_size_m / 111000) i j).lat_max
          - (gridCellAt lat_min lon_min (cell_size_m / 111000) i j).lat_min
          = cell_size_m / 111000 ∧
      (gridCellAt lat_min lon_min (cell_size_m / 111000) i j).lon_max
          - (gridCellAt lat_min lon_min (cell_size_m / 111000) i j).lon_min
          = cell_size_m / 111000 ∧
      (gridCellAt lat_min lon_min (cell_size_m / 111000) (i+1) j).lat_min
          = (gridCellAt lat_min lon_min (cell_size_m / 111000) i j).lat_max ∧
      (gridCellAt lat_min lon_min (cell_size_m / 111000) i (j+1)).lon_min
          = (gridCellAt lat_min lon_min (cell_size_m / 111000) i j).lon_max) ∧
    (gridCellAt lat_min lon_min (cell_size_m / 111000) 0 0).lat_min = lat_min ∧
    (gridCellAt lat_min lon_min (cell_size_m / 111000) 0 0).lon_min = lon_min ∧
    (∀ i ∈ List.range (arangeLen lat_min lat_max (cell_size_m / 111000)),
        lat_min + i * (cell_size_m / 111000) < lat_max) ∧
    lat_max ≤ lat_min
        + (arangeLen lat_min lat_max (cell_size_m / 111000)) * (cell_size_m / 111000) := by
  have hs : (0 : ℚ) < cell_size_m / 111000 := by positivity
  set s : ℚ := cell_size_m / 111000 with hsdef
  refine ⟨rfl, ?_, ?_, ?_, ?_, ?_⟩
  · intro i j
    refine ⟨?_, ?_, ?_, ?_⟩ <;> simp [gridCellAt, mkGridCell] <;> ring
  · simp [gridCellAt, mkGridCell]
  · simp [gridCellAt, mkGridCell]
  · intro i hi
    rw [List.mem_range] at hi
    unfold arangeLen at hi
    have hceil : (i : ℤ) < ⌈(lat_max - lat_min) / s⌉ := by
      have := Int.lt_toNat.mp hi
      exact this
    have h1 : ((i : ℤ) : ℚ) + 1 ≤ (⌈(lat_max - lat_min) / s⌉ : ℚ) := by
      exact_mod_cast hceil
    have h2 : (⌈(lat_max - lat_min) / s⌉ : ℚ) < (lat_max - lat_min) / s + 1 :=
      Int.ceil_lt_add_one _
    have h3 : (i : ℚ) < (lat_max - lat_min) / s := by
      push_cast at h1
      linarith
    have h4 : (i : ℚ) * s < lat_max - lat_min := by
      rw [lt_div_iff₀ hs] at h3
      linarith
    linarith
  · by_cases hd : lat_max - lat_min ≤ 0
    · have : arangeLen lat_min lat_max s * s ≥ 0 := by positivity
      linarith
    · push_neg at hd
      have hy : (0 : ℚ) < (lat_max - lat_min) / s := by positivity
      have hc0 : (0 : ℤ) < ⌈(lat_max - lat_min) / s⌉ := by
        exact_mod_cast Int.ceil_pos.mpr hy
      have htn' : (⌈(lat_max - lat_min) / s⌉.toNat : ℤ) = ⌈(lat_max - lat_min) / s⌉ :=
        Int.toNat_of_nonneg (le_of_lt hc0)
      have htn : ((arangeLen lat_min lat_max s : ℕ) : ℚ)
          = (⌈(lat_max - lat_min) / s⌉ : ℚ) := by
        unfold arangeLen
        exact_mod_cast congrArg (fun z : ℤ => (z : ℚ)) htn'
      have hle : (lat_max - lat_min) / s ≤ (⌈(lat_max - lat_min) / s⌉ : ℚ) :=
        Int.le_ceil _
      have : lat_max - lat_min ≤ (⌈(lat_max - lat_min) / s⌉ : ℚ) * s := by
        rw [div_le_iff₀ hs] at hle
        linarith
      rw [htn]
      linarith

/-- **C8, witness**: bbox latitudes `[0, 1/4]` with 11,100 m cells
(0.1° side) yield three rows; the tiling starts at 0 and its upper edge
`3 * 0.1 = 0.3` reaches past `lat_max = 0.25` unclipped. -/
theorem generate_grid_row_major_tiling_witness :
    (0 : ℚ) < 11100 ∧
    arangeLen 0 (1/4) (11100 / 111000) = 3 ∧
    (gridCellAt 0 0 (11100 / 111000) 0 0).lat_min = 0 ∧
    (1/4 : ℚ) ≤ 0 + (arangeLen 0 (1/4) (11100 / 111000)) * (11100 / 111000) := by
  have h := generate_grid_row_major_tiling 0 (1/4) 0 (1/4) 11100 (by norm_num)
  have hlen : arangeLen 0 (1/4) (11100 / 111000) = 3 := by
    unfold arangeLen
    have hc : ⌈((1:ℚ)/4 - 0) / (11100 / 111000)⌉ = 3 := by
      rw [Int.ceil_eq_iff]
      norm_num
    rw [hc]
    rfl
  exact ⟨by norm_num, hlen, h.2.2.1, h.2.2.2.2.2⟩

/-! ## Mission generation: C2 -/

/-- Flag updates do not change the stored analysis ids. -/
theorem setMissionGenerated_ids (analyses : List CellAnalysisRow) (aid : String) :
    (setMissionGenerated analyses aid).map (fun a => a.id) = analyses.map (fun a => a.id) := by
  unfold setMissionGenerated
  rw [List.map_map]
  apply List.map_congr_left
  intro a _
  simp only [Function.comp]
  split <;> rfl

/-- The creation loop appends exactly one mission `(analysis, user)` per
candidate whose creation succeeds, and never touches analysis ids. -/
theorem missionLoop_spec (userId : String) (createOk flagOk : String → Bool) :
    ∀ (l : List CellAnalysisRow) (st : MissionGenState),
      (missionLoop userId createOk flagOk l st).2
        = (l.filter (fun a => createOk a.id)).map
            (fun a => ({ cell_analysis_id := a.id, user_id := userId } : MissionRow)) ∧
      (missionLoop userId createOk flagOk l st).1.missions
        = st.missions ++ (missionLoop userId createOk flagOk l st).2 ∧
      (missionLoop userId createOk flagOk l st).1.analyses.map (fun a => a.id)
        = st.analyses.map (fun a => a.id)
  | [], st => by simp [missionLoop]
  | a :: rest, st => by
      by_cases hok : createOk a.id
      · have ih := missionLoop_spec userId createOk flagOk rest
          ⟨(if flagOk a.id then setMissionGenerated st.analyses a.id else st.analyses),
           st.missions ++ [{ cell_analysis_id := a.id, user_id := userId }]⟩
      
        simp only [missionLoop, hok, if_true, List.filter_cons, List.map_cons]
        refine ⟨?_, ?_, ?_⟩
        · simp [hok, ih.1]
        · simp only [ih.2.1, ih.1]
          simp [hok]
        · rw [ih.2.2]
          by_cases hf : flagOk a.id
          · simp [hf, setMissionGenerated_ids]
          · simp [hf]
      · have ih := missionLoop_spec userId createOk flagOk rest st
        have hokF : createOk a.id = false := by
          cases hb : createOk a.id
          · rfl
          · exact absurd hb hok
        simp only [missionLoop, hokF, Bool.false_eq_true, if_false, List.filter_cons]
        exact ⟨by simp [hokF, ih.1], ih.2.1, ih.2.2⟩

/-- Every mission created by one invocation passed both guard layers at
the invocation's start: its analysis had `mission_generated ≠ True`, and
no mission for the same (analysis, user) pair existed. -/
theorem generate_missions_created (st : MissionGenState) (parentId userId : String)
    (dist : CellAnalysisRow → ℚ) (maxMissions : ℕ) (createOk flagOk : String → Bool) :
    ∀ m ∈ (generate_missions_from_analyses st parentId userId dist maxMissions
        createOk flagOk).2,
      m.user_id = userId ∧
      (∃ a ∈ st.analyses, a.id = m.cell_analysis_id ∧ a.mission_generated ≠ some true) ∧
      (∀ m' ∈ st.missions,
        ¬(m'.cell_analysis_id = m.cell_analysis_id ∧ m'.user_id = userId)) := by
  intro m hm
  simp only [generate_missions_from_analyses] at hm
  split at hm
  · simp at hm
  split at hm
  · simp at hm
  split at hm
  · simp at hm
  split at hm
  · simp at hm
  rw [(missionLoop_spec userId createOk flagOk _ _).1] at hm
  rcases List.mem_map.mp hm with ⟨a, hafilter, rfl⟩
  have hatake := (List.mem_filter.mp hafilter).1
  have hasorted := List.mem_of_mem_take hatake
  have hanew := (List.perm_insertionSort
    (fun x y => dist x ≤ dist y) _).mem_iff.mp hasorted
  have hanotgen := (List.mem_filter.mp hanew).1
  have hbackup := (List.mem_filter.mp hanew).2
  have hahot := (List.mem_filter.mp hanotgen).1
  have hflag := (List.mem_filter.mp hanotgen).2
  have haparent := (List.mem_filter.mp hahot).1
  have hast : a ∈ st.analyses := (List.mem_filter.mp haparent).1
  refine ⟨rfl, ⟨a, hast, rfl, ?_⟩, ?_⟩
  · intro hgen
    rw [hgen] at hflag
    simp at hflag
  · intro m' hm' ⟨hmid, hmuid⟩
    have hamem : a.id ∈ (st.analyses.filter (fun x => x.parent_cell_id == parentId)
        |>.filter isHotspotAnalysis
        |>.filter (fun x => !(x.mission_generated == some true))).map (fun x => x.id) :=
      List.mem_map.mpr ⟨a, hanotgen, rfl⟩
    have hm'in : m' ∈ st.missions.filter (fun q =>
        ((st.analyses.filter (fun x => x.parent_cell_id == parentId)
          |>.filter isHotspotAnalysis
          |>.filter (fun x => !(x.mission_generated == some true))).map
            (fun x => x.id)).contains q.cell_analysis_id && q.user_id == userId) := by
      refine List.mem_filter.mpr ⟨hm', ?_⟩
      rw [Bool.and_eq_true]
      constructor
      · rw [hmid]
        exact List.elem_eq_true_of_mem hamem
      · simp [hmuid]
    have : a.id ∈ (st.missions.filter (fun q =>
        ((st.analyses.filter (fun x => x.parent_cell_id == parentId)
          |>.filter isHotspotAnalysis
          |>.filter (fun x => !(x.mission_generated == some true))).map
            (fun x => x.id)).contains q.cell_analysis_id && q.user_id == userId)).map
        (fun q => q.cell_analysis_id) :=
      List.mem_map.mpr ⟨m', hm'in, hmid⟩
    have htrue : ((st.missions.filter (fun q =>
        ((st.analyses.filter (fun x => x.parent_cell_id == parentId)
          |>.filter isHotspotAnalysis
          |>.filter (fun x => !(x.mission_generated == some true))).map
            (fun x => x.id)).contains q.cell_analysis_id && q.user_id == userId)).map
        (fun q => q.cell_analysis_id)).contains a.id = true :=
      List.elem_eq_true_of_mem this
    have hfalse := hbackup
    rw [htrue] at hfalse
    exact absurd hfalse (by simp)

/-- One invocation only appends missions: the resulting missions table is
the old table plus the created missions. -/
theorem generate_missions_appends (st : MissionGenState) (parentId userId : String)
    (dist : CellAnalysisRow → ℚ) (maxMissions : ℕ) (createOk flagOk : String → Bool) :
    (generate_missions_from_analyses st parentId userId dist maxMissions
        createOk flagOk).1.missions
      = st.missions ++ (generate_missions_from_analyses st parentId userId dist maxMissions
        createOk flagOk).2 := by
  simp only [generate_missions_from_analyses]
  split
  · simp
  split
  · simp
  split
  · simp
  split
  · simp
  exact (missionLoop_spec userId createOk flagOk _ _).2.1

/-- One invocation never changes the stored analysis ids. -/
theorem generate_missions_ids (st : MissionGenState) (parentId userId : String)
    (dist : CellAnalysisRow → ℚ) (maxMissions : ℕ) (createOk flagOk : String → Bool) :
    (generate_missions_from_analyses st parentId userId dist maxMissions
        createOk flagOk).1.analyses.map (fun a => a.id)
      = st.analyses.map (fun a => a.id) := by
  simp only [generate_missions_from_analyses]
  split
  · simp
  split
  · simp
  split
  · simp
  split
  · simp
  exact (missionLoop_spec userId createOk flagOk _ _).2.2

/-- With distinct analysis ids in the store, the missions one invocation
creates carry pairwise distinct (analysis, user) pairs. -/
theorem generate_missions_created_nodup (st : MissionGenState) (parentId userId : String)
    (dist : CellAnalysisRow → ℚ) (maxMissions : ℕ) (createOk flagOk : String → Bool)
    (hids : (st.analyses.map (fun a => a.id)).Nodup) :
    (((generate_missions_from_analyses st parentId userId dist maxMissions
        createOk flagOk).2).map missionPair).Nodup := by
  simp only [generate_missions_from_analyses]
  split
  · simp
  split
  · simp
  split
  · simp
  split
  · simp
  rw [(missionLoop_spec userId createOk flagOk _ _).1]
  rw [List.map_map]
  have hchain : ((st.analyses.filter (fun a => a.parent_cell_id == parentId)
      |>.filter isHotspotAnalysis
      |>.filter (fun a => !(a.mission_generated == some true))
      |>.filter (fun a => !((st.missions.filter (fun m =>
          ((st.analyses.filter (fun a => a.parent_cell_id == parentId)
            |>.filter isHotspotAnalysis
            |>.filter (fun a => !(a.mission_generated == some true))).map
              (fun a => a.id)).contains m.cell_analysis_id && m.user_id == userId)).map
          (fun m => m.cell_analysis_id)).contains a.id)).map (fun a => a.id)).Nodup := by
    refine List.Nodup.sublist (List.Sublist.map _ ?_) hids
    exact ((((List.filter_sublist _).trans (List.filter_sublist _)).trans
      (List.filter_sublist _)).trans (List.filter_sublist _))
  have hsorted : ((List.insertionSort (fun a b => dist a ≤ dist b)
      (st.analyses.filter (fun a => a.parent_cell_id == parentId)
      |>.filter isHotspotAnalysis
      |>.filter (fun a => !(a.mission_generated == some true))
      |>.filter (fun a => !((st.missions.filter (fun m =>
          ((st.analyses.filter (fun a => a.parent_cell_id == parentId)
            |>.filter isHotspotAnalysis
            |>.filter (fun a => !(a.mission_generated == some true))).map
              (fun a => a.id)).contains m.cell_analysis_id && m.user_id == userId)).map
          (fun m => m.cell_analysis_id)).contains a.id))).map (fun a => a.id)).Nodup := by
    refine (List.Perm.nodup_iff (List.Perm.map _ ?_)).mpr hchain
    exact List.perm_insertionSort _ _
  have htake : ∀ l : List CellAnalysisRow, (l.map (fun a => a.id)).Nodup →
      (((l.take maxMissions).filter (fun a => createOk a.id)).map (fun a => a.id)).Nodup := by
    intro l hl
    refine List.Nodup.sublist (List.Sublist.map _ ?_) hl
    exact (List.filter_sublist _).trans (List.take_sublist _ _)
  have hcand := htake _ hsorted
  refine List.Nodup.map_on ?_ (List.Nodup.of_map _ hcand)
  intro x hx y hy hxy
  have hid : x.id = y.id := by
    have : (x.id, userId) = (y.id, userId) := hxy
    exact (Prod.mk.injEq _ _ _ _ ▸ this : _ ∧ _).1
  exact List.inj_on_of_nodup_map hcand hx hy hid

/-- Invariant preservation: one invocation keeps analysis ids distinct and
keeps the (analysis, user) pairs of the missions table distinct. -/
theorem generate_missions_invariant (st : MissionGenState) (parentId userId : String)
    (dist : CellAnalysisRow → ℚ) (maxMissions : ℕ) (createOk flagOk : String → Bool)
    (hids : (st.analyses.map (fun a => a.id)).Nodup)
    (hpairs : (st.missions.map missionPair).Nodup) :
    (((generate_missions_from_analyses st parentId userId dist maxMissions
        createOk flagOk).1.analyses.map (fun a => a.id)).Nodup) ∧
    (((generate_missions_from_analyses st parentId userId dist maxMissions
        createOk flagOk).1.missions.map missionPair).Nodup) := by
  constructor
  · rw [generate_missions_ids]
    exact hids
  · rw [generate_missions_appends, List.map_append]
    refine List.Nodup.append hpairs
      (generate_missions_created_nodup st parentId userId dist maxMissions createOk flagOk hids)
      ?_
    intro p hpold hpnew
    rcases List.mem_map.mp hpnew with ⟨m, hm, rfl⟩
    rcases List.mem_map.mp hpold with ⟨m', hm', hpair⟩
    have hc := generate_missions_created st parentId userId dist maxMissions createOk flagOk m hm
    refine hc.2.2 m' hm' ?_
    unfold missionPair at hpair
    rw [Prod.mk.injEq] at hpair
    exact ⟨hpair.1, hpair.2.trans hc.1⟩

/-- Both invariants hold after any sequence of invocations. -/
theorem runMissionInvocations_invariant :
    ∀ (invs : List MissionInvocation) (st : MissionGenState),
      (st.analyses.map (fun a => a.id)).Nodup →
      (st.missions.map missionPair).Nodup →
      ((runMissionInvocations invs st).analyses.map (fun a => a.id)).Nodup ∧
      ((runMissionInvocations invs st).missions.map missionPair).Nodup
  | [], st, hids, hpairs => ⟨hids, hpairs⟩
  | inv :: rest, st, hids, hpairs => by
      have hstep := generate_missions_invariant st inv.parentId inv.userId inv.dist
        inv.maxMissions inv.createOk inv.flagOk hids hpairs
      exact runMissionInvocations_invariant rest _ hstep.1 hstep.2

/-- **C2.**  Across any sequence of invocations of mission generation
(same or different users, arbitrary creation/flag-update outcomes), at
most one Mission row ever exists for a given (CellAnalysis, user) pair:
starting from a store with distinct analysis ids and no duplicate pairs,
the (analysis, user) pairs of the missions table stay pairwise distinct;
moreover each mission an invocation creates passed both guard layers at
its start — the analysis-level `mission_generated` flag was not `True`
and the backup query found no mission for that (analysis, user) pair. -/
theorem mission_generation_at_most_once_per_pair
    (st : MissionGenState)
    (hids : (st.analyses.map (fun a => a.id)).Nodup)
    (hpairs : (st.missions.map missionPair).Nodup) :
    (∀ invs : List MissionInvocation,
      ((runMissionInvocations invs st).missions.map missionPair).Nodup) ∧
    (∀ (parentId userId : String) (dist : CellAnalysisRow → ℚ) (maxMissions : ℕ)
        (createOk flagOk : String → Bool),
      ∀ m ∈ (generate_missions_from_analyses st parentId userId dist maxMissions
          createOk flagOk).2,
        m.user_id = userId ∧
        (∃ a ∈ st.analyses, a.id = m.cell_analysis_id ∧ a.mission_generated ≠ some true) ∧
        (∀ m' ∈ st.missions,
          ¬(m'.cell_analysis_id = m.cell_analysis_id ∧ m'.user_id = userId))) := by
  constructor
  · intro invs
    exact (runMissionInvocations_invariant invs st hids hpairs).2
  · intro parentId userId dist maxMissions createOk flagOk m hm
    exact generate_missions_created st parentId userId dist maxMissions createOk flagOk m hm

/-- **C2, witness**: one invocation over a store holding one hotspot
analysis and no missions leaves no duplicated (analysis, user) pair. -/
theorem mission_generation_at_most_once_per_pair_witness :
    ((runMissionInvocations [exampleMissionInvocation]
        exampleMissionState).missions.map missionPair).Nodup := by
  have h := mission_generation_at_most_once_per_pair exampleMissionState
    (by simp [exampleMissionState]) (by simp [exampleMissionState])
  exact h.1 [exampleMissionInvocation]

/-! ## Parent-cell key: C6 -/

theorem digitChar_inj {a b : ℕ} (ha : a < 10) (hb : b < 10)
    (h : digitChar a = digitChar b) : a = b := by
  interval_cases a <;> interval_cases b <;> simp_all [digitChar]

theorem digitChar_not_special {d : ℕ} (hd : d < 10) :
    digitChar d ≠ '.' ∧ digitChar d ≠ '_' ∧ digitChar d ≠ '-' := by
  interval_cases d <;> exact ⟨by decide, by decide, by decide⟩

theorem map_digitChar_inj : ∀ (l1 l2 : List ℕ),
    (∀ d ∈ l1, d < 10) → (∀ d ∈ l2, d < 10) →
    l1.map digitChar = l2.map digitChar → l1 = l2
  | [], [], _, _, _ => rfl
  | [], _ :: _, _, _, h => by simp at h
  | _ :: _, [], _, _, h => by simp at h
  | a :: t1, b :: t2, h1, h2, h => by
      rw [List.map_cons, List.map_cons] at h
      injection h with hhd htl
      have ha := h1 a (List.mem_cons_self _ _)
      have hb := h2 b (List.mem_cons_self _ _)
      rw [digitChar_inj ha hb hhd,
        map_digitChar_inj t1 t2 (fun d hd => h1 d (List.mem_cons_of_mem _ hd))
          (fun d hd => h2 d (List.mem_cons_of_mem _ hd)) htl]

theorem toDigitsRevAux_eq_digits : ∀ f n : ℕ, n ≤ f → toDigitsRevAux f n = Nat.digits 10 n
  | _, 0, _ => by simp [toDigitsRevAux]
  | 0, n + 1, h => by omega
  | f + 1, n + 1, h => by
      rw [toDigitsRevAux, toDigitsRevAux_eq_digits f ((n + 1) / 10) (by omega),
        Nat.digits_def' (by norm_num : 1 < 10) (Nat.succ_pos n)]

theorem natToChars_eq_digits (n : ℕ) :
    natToChars n = if n = 0 then ['0'] else (Nat.digits 10 n).reverse.map digitChar := by
  unfold natToChars
  rw [toDigitsRevAux_eq_digits n n le_rfl]

theorem natToChars_ne_nil (n : ℕ) : natToChars n ≠ [] := by
  rw [natToChars_eq_digits]
  split
  · simp
  · rename_i hn
    simp only [ne_eq, List.map_eq_nil_iff, List.reverse_eq_nil_iff]
    exact Nat.digits_ne_nil_iff_ne_zero.mpr hn

theorem natToChars_mem (n : ℕ) : ∀ c ∈ natToChars n, ∃ d, d < 10 ∧ c = digitChar d := by
  intro c hc
  rw [natToChars_eq_digits] at hc
  split at hc
  · refine ⟨0, by norm_num, ?_⟩
    have hc0 := List.mem_singleton.mp hc
    simp [hc0, digitChar]
  · rcases List.mem_map.mp hc with ⟨d, hd, rfl⟩
    exact ⟨d, Nat.digits_lt_base (by norm_num) (List.mem_reverse.mp hd), rfl⟩

theorem natToChars_inj : ∀ n m : ℕ, natToChars n = natToChars m → n = m := by
  have key : ∀ n m : ℕ, n ≠ 0 → m ≠ 0 →
      (Nat.digits 10 n).reverse.map digitChar = (Nat.digits 10 m).reverse.map digitChar →
      n = m := by
    intro n m hn hm h
    have hdig : (Nat.digits 10 n).reverse = (Nat.digits 10 m).reverse :=
      map_digitChar_inj _ _
        (fun d hd => Nat.digits_lt_base (by norm_num) (List.mem_reverse.mp hd))
        (fun d hd => Nat.digits_lt_base (by norm_num) (List.mem_reverse.mp hd)) h
    have hrev := List.reverse_injective hdig
    calc n = Nat.ofDigits 10 (Nat.digits 10 n) := (Nat.ofDigits_digits 10 n).symm
      _ = Nat.ofDigits 10 (Nat.digits 10 m) := by rw [hrev]
      _ = m := Nat.ofDigits_digits 10 m
  have zeroCase : ∀ m : ℕ, m ≠ 0 → ['0'] ≠ (Nat.digits 10 m).reverse.map digitChar := by
    intro m hm h
    have hlen : (Nat.digits 10 m).reverse.length = 1 := by
      rw [← List.length_map _ digitChar, ← h]
      rfl
    rcases List.length_eq_one.mp hlen with ⟨d, hd⟩
    rw [hd] at h
    have hdmem : d ∈ Nat.digits 10 m := List.mem_reverse.mp (hd ▸ List.mem_singleton_self d)
    have hdlt : d < 10 := Nat.digits_lt_base (by norm_num) hdmem
    have hd0 : d = 0 := by
      have hdd : digitChar 0 = digitChar d := by simpa [digitChar] using h
      exact (digitChar_inj (by norm_num) hdlt hdd).symm
    have hsing : (Nat.digits 10 m) = [d] := by
      have := congrArg List.reverse hd
      simpa using this
    have hm0 : m = 0 := by
      have hof := congrArg (Nat.ofDigits 10) hsing
      rw [Nat.ofDigits_digits] at hof
      simpa [hd0, Nat.ofDigits] using hof
    exact hm hm0
  intro n m h
  rw [natToChars_eq_digits, natToChars_eq_digits] at h
  by_cases hn : n = 0 <;> by_cases hm : m = 0
  · rw [hn, hm]
  · rw [if_pos hn, if_neg hm] at h
    exact absurd h (zeroCase m hm)
  · rw [if_neg hn, if_pos hm] at h
    exact absurd h.symm (zeroCase n hn)
  · rw [if_neg hn, if_neg hm] at h
    exact key n m hn hm h

set_option maxRecDepth 4000 in
theorem fracChars2_inj_fin : ∀ a b : Fin 100,
    fracChars2 a.val = fracChars2 b.val → a = b := by decide

set_option maxRecDepth 4000 in
theorem fracChars2_not_special_fin : ∀ a : Fin 100, ∀ c ∈ fracChars2 a.val,
    c ≠ '.' ∧ c ≠ '_' ∧ c ≠ '-' := by decide

theorem splitAtChar_unique (ch : Char) : ∀ (l1 l1' l2 l2' : List Char),
    ch ∉ l1 → ch ∉ l1' → l1 ++ ch :: l2 = l1' ++ ch :: l2' → l1 = l1' ∧ l2 = l2'
  | [], [], _, _, _, _, h => ⟨rfl, by simpa using h⟩
  | [], a' :: t1', _, _, _, h1', h => by
      simp only [List.nil_append, List.cons_append] at h
      injection h with hhd _
      rw [hhd] at h1'
      exact absurd (List.mem_cons_self _ _) h1'
  | a :: t1, [], _, _, h1, _, h => by
      simp only [List.nil_append, List.cons_append] at h
      injection h with hhd _
      rw [← hhd] at h1
      exact absurd (List.mem_cons_self _ _) h1
  | a :: t1, a' :: t1', l2, l2', h1, h1', h => by
      simp only [List.cons_append] at h
      injection h with hhd htl
      have ih := splitAtChar_unique ch t1 t1' l2 l2'
        (fun hm => h1 (List.mem_cons_of_mem _ hm))
        (fun hm => h1' (List.mem_cons_of_mem _ hm)) htl
      exact ⟨by rw [hhd, ih.1], ih.2⟩

theorem natToChars_no_dot (n : ℕ) : '.' ∉ natToChars n := by
  intro hm
  rcases natToChars_mem n _ hm with ⟨d, hd, hEq⟩
  exact (digitChar_not_special hd).1 hEq.symm

theorem qToChars2_no_underscore (c : ℤ) : '_' ∉ qToChars2 c := by
  intro hm
  unfold qToChars2 at hm
  rcases List.mem_append.mp hm with h | h2
  · rcases List.mem_append.mp h with hs | hn
    · split at hs
      · rw [List.mem_singleton] at hs
        exact absurd hs (by decide)
      · simp at hs
    · rcases natToChars_mem _ _ hn with ⟨d, hd, hEq⟩
      exact (digitChar_not_special hd).2.1 hEq.symm
  · rcases List.mem_cons.mp h2 with hEq | h3
    · exact absurd hEq (by decide)
    · have := fracChars2_not_special_fin
        ⟨c.natAbs % 100, Nat.mod_lt _ (by norm_num)⟩ '_' h3
      exact this.2.1 rfl

theorem qToChars2_inj (c c' : ℤ) (h : qToChars2 c = qToChars2 c') : c = c' := by
  have body_inj : ∀ n m : ℕ,
      natToChars (n / 100) ++ '.' :: fracChars2 (n % 100)
        = natToChars (m / 100) ++ '.' :: fracChars2 (m % 100) → n = m := by
    intro n m hb
    have hsplit := splitAtChar_unique '.' _ _ _ _
      (natToChars_no_dot (n / 100)) (natToChars_no_dot (m / 100)) hb
    have hdiv := natToChars_inj _ _ hsplit.1
    have hmodFin := fracChars2_inj_fin
      ⟨n % 100, Nat.mod_lt _ (by norm_num)⟩ ⟨m % 100, Nat.mod_lt _ (by norm_num)⟩ hsplit.2
    have hmod : n % 100 = m % 100 := congrArg Fin.val hmodFin
    omega
  unfold qToChars2 at h
  by_cases hc : c < 0 <;> by_cases hc' : c' < 0
  · rw [if_pos hc, if_pos hc', List.singleton_append, List.singleton_append,
      List.cons_append, List.cons_append] at h
    injection h with _ htl
    have := body_inj _ _ htl
    omega
  · rw [if_pos hc, if_neg hc', List.singleton_append, List.nil_append,
      List.cons_append] at h
    rcases List.exists_cons_of_ne_nil (natToChars_ne_nil (c'.natAbs / 100)) with ⟨hd, tl, hEq⟩
    rw [hEq, List.cons_append] at h
    injection h with hhd _
    have hhdmem : hd ∈ natToChars (c'.natAbs / 100) := by
      rw [hEq]
      exact List.mem_cons_self _ _
    rcases natToChars_mem _ _ hhdmem with ⟨d, hdlt, rfl⟩
    exact absurd hhd.symm (digitChar_not_special hdlt).2.2
  · rw [if_neg hc, if_pos hc', List.singleton_append, List.nil_append,
      List.cons_append] at h
    rcases List.exists_cons_of_ne_nil (natToChars_ne_nil (c.natAbs / 100)) with ⟨hd, tl, hEq⟩
    rw [hEq, List.cons_append] at h
    injection h with hhd _
    have hhdmem : hd ∈ natToChars (c.natAbs / 100) := by
      rw [hEq]
      exact List.mem_cons_self _ _
    rcases natToChars_mem _ _ hhdmem with ⟨d, hdlt, rfl⟩
    exact absurd hhd (digitChar_not_special hdlt).2.2
  · rw [if_neg hc, if_neg hc', List.nil_append, List.nil_append] at h
    have := body_inj _ _ h
    omega

/-- The key determines — and is determined by — the rounded coordinates. -/
theorem create_parent_cell_key_inj (lat lon lat' lon' : ℚ)
    (h : create_parent_cell_key lat lon = create_parent_cell_key lat' lon') :
    pyRound2Int lat = pyRound2Int lat' ∧ pyRound2Int lon = pyRound2Int lon' := by
  unfold create_parent_cell_key at h
  have hdata : ("parent_".data ++ qToChars2 (pyRound2Int lat))
        ++ '_' :: qToChars2 (pyRound2Int lon)
      = ("parent_".data ++ qToChars2 (pyRound2Int lat'))
        ++ '_' :: qToChars2 (pyRound2Int lon') := congrArg String.data h
  rw [List.append_assoc, List.append_assoc] at hdata
  have happ := List.append_cancel_left hdata
  have hsplit := splitAtChar_unique '_' _ _ _ _
    (qToChars2_no_underscore (pyRound2Int lat)) (qToChars2_no_underscore (pyRound2Int lat')) happ
  exact ⟨qToChars2_inj _ _ hsplit.1, qToChars2_inj _ _ hsplit.2⟩

/-- **C6.**  `create_parent_cell_key` is a pure function of the
coordinates rounded to 2 decimal places (modelled by
`pyRound2Int x = round(100 * x)`): coordinates rounding identically give
the same key, coordinates rounding differently give different keys, and
on the concrete inputs `(51.532, -0.053)` and `(51.534, -0.051)` the key
is `"parent_51.53_-0.05"` for both while `(51.55, -0.053)` yields a
different key. -/
theorem parent_cell_key_pure_function_of_rounded_coords :
    (∀ lat lon lat' lon' : ℚ, pyRound2Int lat = pyRound2Int lat' →
        pyRound2Int lon = pyRound2Int lon' →
        create_parent_cell_key lat lon = create_parent_cell_key lat' lon') ∧
    (∀ lat lon lat' lon' : ℚ,
        create_parent_cell_key lat lon = create_parent_cell_key lat' lon' →
        pyRound2Int lat = pyRound2Int lat' ∧ pyRound2Int lon = pyRound2Int lon') ∧
    create_parent_cell_key (51532/1000) (-53/1000) = "parent_51.53_-0.05" ∧
    create_parent_cell_key (51532/1000) (-53/1000)
        = create_parent_cell_key (51534/1000) (-51/1000) ∧
    create_parent_cell_key (51532/1000) (-53/1000)
        ≠ create_parent_cell_key (5155/100) (-53/1000) := by
  have e1 : pyRound2Int (51532/1000 : ℚ) = 5153 := by
    norm_num [pyRound2Int, roundHalfEven]
  have e2 : pyRound2Int (-53/1000 : ℚ) = -5 := by
    norm_num [pyRound2Int, roundHalfEven]
  have e3 : pyRound2Int (51534/1000 : ℚ) = 5153 := by
    norm_num [pyRound2Int, roundHalfEven]
  have e4 : pyRound2Int (-51/1000 : ℚ) = -5 := by
    norm_num [pyRound2Int, roundHalfEven]
  have e5 : pyRound2Int (5155/100 : ℚ) = 5155 := by
    norm_num [pyRound2Int, roundHalfEven]
  refine ⟨?_, ?_, ?_, ?_, ?_⟩
  · intro lat lon lat' lon' h1 h2
    unfold create_parent_cell_key
    rw [h1, h2]
  · intro lat lon lat' lon' h
    exact create_parent_cell_key_inj lat lon lat' lon' h
  · unfold create_parent_cell_key
    rw [e1, e2]
    decide
  · unfold create_parent_cell_key
    rw [e1, e2, e3, e4]
  · unfold create_parent_cell_key
    rw [e1, e2, e5]
    decide

/-- **C6, witness**: the congruence part applied to the two centers that
round identically, and the injectivity part applied to the concrete equal
keys. -/
theorem parent_cell_key_pure_function_witness :
    pyRound2Int (51532/1000 : ℚ) = pyRound2Int (51534/1000 : ℚ) ∧
    pyRound2Int (-53/1000 : ℚ) = pyRound2Int (-51/1000 : ℚ) ∧
    create_parent_cell_key (51532/1000) (-53/1000)
      = create_parent_cell_key (51534/1000) (-51/1000) := by
  have h1 : pyRound2Int (51532/1000 : ℚ) = pyRound2Int (51534/1000 : ℚ) := by
    norm_num [pyRound2Int, roundHalfEven]
  have h2 : pyRound2Int (-53/1000 : ℚ) = pyRound2Int (-51/1000 : ℚ) := by
    norm_num [pyRound2Int, roundHalfEven]
  exact ⟨h1, h2,
    parent_cell_key_pure_function_of_rounded_coords.1 _ _ _ _ h1 h2⟩

end HeatQuest
